import Mathlib

/-!
Verification development for the "Raiders of the North Sea" game engine
(Python sources under src/game/: state.py, board.py, cards.py, actions.py,
rules.py, engine.py).

The Python code is shallowly embedded: every Python class becomes a Lean
structure, every method a Lean function.  Python's in-place mutation is
modelled by explicit state passing; the ambient `random` module is modelled
by an explicit PRNG state (a `Nat`) threaded through every operation that
consumes randomness; Python exceptions are modelled by `PyErr` values
(`Option PyErr` on the mutating paths, so that the partially-mutated state
at the moment an exception is raised is preserved, exactly as Python's
in-place mutation does).  Python `dict` lookups built by comprehension
(later entries win) are modelled by searching the reversed list.

The catalog data files (board_village.json, board_raids.json,
offerings.json, cards_townsfolk.json) are not part of the engine sources;
per spec section 3 the catalog is an immutable reference dataset, so the
embedding is parametric in a `Catalog` value.
-/

namespace Raiders

/-- Python exception kinds that the embedded code can raise. -/
inductive PyErr where
  | attributeError
  | valueError
  | indexError
deriving DecidableEq, Repr

/-- state.py `WorkerColor` enum. -/
inductive WorkerColor where
  | black
  | grey
  | white
deriving DecidableEq, Repr

/-- The `.value` string of a `WorkerColor` member. -/
def WorkerColor.value : WorkerColor → String
  | .black => "black"
  | .grey => "grey"
  | .white => "white"

/-- state.py `GamePhase` enum. -/
inductive GamePhase where
  | work
  | raidPhase
  | gameEnd
deriving DecidableEq, Repr

/-- A Python resource dict (resource name, amount), e.g. `{"silver": 2}`. -/
abbrev ResMap := List (String × Int)

/-- Python dict lookup for a dict built from a list by comprehension:
later entries overwrite earlier ones, so we search the reversed list. -/
def dictFind (key : String) (l : List (String × α)) : Option α :=
  (l.reverse.find? (fun kv => kv.1 == key)).map (fun kv => kv.2)

/-- The per-color entry of a `gain_by_worker_color` building action:
either a direct resource mapping, or a dict containing a `"choice"` list
of alternative mappings. -/
inductive ColorGain where
  | direct (res : ResMap)
  | choice (options : List ResMap)
deriving DecidableEq, Repr

/-- A building's `action` dict, tagged by its `"type"` string.  Only the
`draw_cards` and `gain_by_worker_color` kinds are acted on by
`PlaceWorkerAction._execute_building_action` / `PickupWorkerAction.execute`;
all other kinds fall through (actions.py line 161). -/
inductive BuildingEffect where
  | drawCards (amount : Nat)
  | gainByWorkerColor (byColor : List (String × ColorGain))
  | otherEffect (ty : String)
deriving DecidableEq, Repr

/-- A card's `hire_crew_action` dict, tagged by its `"type"` string, with
the `.get` defaults of rules.py `calculate_raid_strength` folded in
(`divisor` default 1, `bonus_per` default 1, `bonus` default 0). -/
inductive HireEffect where
  | dynamicStrength (condition : String) (divisor : Int) (bonusPer : Int)
  | raidStrengthBonus (condition : String) (raidType : String) (bonus : Int)
  | otherHire (ty : String)
deriving DecidableEq, Repr

/-- A card's `town_hall_action` dict, tagged by its `"type"` string:
the effect kinds dispatched in rules.py `resolve_town_hall_effect`
(lines 205-304), with `.get` defaults folded in. -/
inductive THEffect where
  | swapWorker
  | gainResource (resource : String) (amount : Int)
  | gainResources (resources : ResMap)
  | opponentsLoseResource (resource : String) (amount : Int)
  | opponentLosesResource
  | stealPlunder
  | stealResource
  | trade (give : ResMap) (receive : ResMap)
  | drawCardsTH (amount : Nat)
  | swapCrewCard
  | discardForCurrency
  | hireCrewDiscounted
  | manipulateOfferings
  | swapCardsOpponent
  | offeringDiscount
  | collectFromOpponents (options : List String) (amount : Int)
  | copyBuildingAction
  | heroNoDiscard
  | otherTH (ty : String)
deriving DecidableEq, Repr

/-- cards.py `TownsfolkCard`. -/
structure TownsfolkCard where
  id : String
  name : String
  cost : Int
  strength : Int
  deckCount : Nat
  vp : Int
  hireCrewAction : HireEffect
  townHallAction : THEffect
  isHero : Bool
deriving DecidableEq, Repr

/-- cards.py `TownsfolkCard.is_playable_at_town_hall`: true unless the
town-hall action's type is `"hero_no_discard"`. -/
def TownsfolkCard.isPlayableAtTownHall (c : TownsfolkCard) : Bool :=
  match c.townHallAction with
  | .heroNoDiscard => false
  | _ => true

/-- board.py `VillageBuilding`. -/
structure VillageBuilding where
  id : String
  name : String
  workerSlots : Int
  effect : BuildingEffect
  workerRequirement : Option (List String)
deriving DecidableEq, Repr

/-- board.py `VillageBuilding.allows_worker_color`. -/
def VillageBuilding.allowsWorkerColor (b : VillageBuilding) (color : String) : Bool :=
  match b.workerRequirement with
  | none => true
  | some req => req.contains color

/-- board.py `OfferingTile`. -/
structure OfferingTile where
  id : String
  requirements : ResMap
  vp : Int
deriving DecidableEq, Repr

/-- board.py `RaidSublocation`.  The `worker_on_spot` string is decoded
into `Option WorkerColor` at the catalog boundary (empty string, which is
falsy in Python, becomes `none`); catalog loading is out of scope. -/
structure RaidSublocation where
  id : String
  plunder : Int
  workerOnSpot : Option WorkerColor
deriving DecidableEq, Repr

/-- board.py `VPTier`. -/
structure VPTier where
  minStrength : Int
  vp : Int
deriving DecidableEq, Repr

/-- The `requirements` dict of a raid location. -/
structure RaidRequirements where
  minCrew : Int
  provisions : Int
  gold : Int
  workerColors : List String
deriving DecidableEq, Repr

/-- board.py `RaidLocation`. -/
structure RaidLocation where
  id : String
  name : String
  type : String
  requirements : RaidRequirements
  vpTiers : List VPTier
  diceAdded : Nat
  sublocations : List RaidSublocation
deriving DecidableEq, Repr

/-- board.py `RaidLocation.get_vp_for_strength`: first tier (in list
order) whose `min_strength` the strength reaches wins; default 0. -/
def RaidLocation.getVpForStrength (r : RaidLocation) (strength : Int) : Int :=
  match r.vpTiers.find? (fun t => decide (t.minStrength ≤ strength)) with
  | some t => t.vp
  | none => 0

/-- board.py `RaidLocation.allows_worker_color`. -/
def RaidLocation.allowsWorkerColor (r : RaidLocation) (color : String) : Bool :=
  r.requirements.workerColors.contains color

/-- The immutable reference catalog: board.py `BoardDatabase` plus
cards.py `CardDatabase`. -/
structure Catalog where
  buildings : List VillageBuilding
  offerings : List OfferingTile
  raids : List RaidLocation
  cards : List TownsfolkCard
deriving DecidableEq, Repr

/-- board.py `BoardDatabase.get_building` (dict keyed by id, later wins). -/
def Catalog.getBuilding (ctx : Catalog) (bid : String) : Option VillageBuilding :=
  ctx.buildings.reverse.find? (fun b => b.id == bid)

/-- board.py `BoardDatabase.get_building_by_name`. -/
def Catalog.getBuildingByName (ctx : Catalog) (nm : String) : Option VillageBuilding :=
  ctx.buildings.reverse.find? (fun b => b.name == nm)

/-- board.py `BoardDatabase.get_raid`. -/
def Catalog.getRaid (ctx : Catalog) (rid : String) : Option RaidLocation :=
  ctx.raids.reverse.find? (fun r => r.id == rid)

/-- cards.py `CardDatabase.create_deck`: each card replicated
`deck_count` times, in catalog order. -/
def Catalog.createDeck (ctx : Catalog) : List TownsfolkCard :=
  ctx.cards.flatMap (fun c => List.replicate c.deckCount c)

/-! ### PRNG

Python's global `random` module (seeded once in
`GameState.create_initial_state`) is modelled by an explicit generator
state threaded through every randomized operation.  The concrete update
function is a linear congruential generator; the claims depend only on
the generator being a deterministic function of its state. -/

/-- One PRNG step: next raw value and next generator state. -/
def rngNext (g : Nat) : Nat × Nat :=
  let g' := (1103515245 * g + 12345) % 2147483648
  (g', g')

/-- Model of `random.randint(1, 6)`: a die roll. -/
def rollDie (g : Nat) : Int × Nat :=
  let (v, g') := rngNext g
  (Int.ofNat (v % 6 + 1), g')

/-- Sum of `n` independent die rolls, in roll order
(`sum(random.randint(1, 6) for _ in range(n))`). -/
def rollDice : Nat → Nat → Int × Nat
  | 0, g => (0, g)
  | n + 1, g =>
    let (d, g') := rollDie g
    let (rest, g'') := rollDice n g'
    (d + rest, g'')

/-- Model of `random.shuffle`: repeatedly draw a pseudo-random index into
the remainder and move that element to the output. -/
def shuffleGo : Nat → List α → List α → Nat → List α × Nat
  | 0, acc, rest, g => (acc ++ rest, g)
  | n + 1, acc, rest, g =>
    match rest with
    | [] => (acc, g)
    | _ =>
      let (v, g') := rngNext g
      let i := v % rest.length
      match rest.get? i with
      | some x => shuffleGo n (acc ++ [x]) (rest.eraseIdx i) g'
      | none => (acc ++ rest, g')

/-- Shuffle a list with the PRNG. -/
def shuffle (l : List α) (g : Nat) : List α × Nat :=
  shuffleGo l.length [] l g

/-! ### Generic list helpers mirroring Python list operations -/

/-- Repetitions of `if l: out.append(l.pop())`: pops up to `n` elements
off the END of the list, returning them in pop order together with the
remaining list. -/
def popList : Nat → List α → List α × List α
  | 0, l => ([], l)
  | n + 1, l =>
    match l.getLast? with
    | none => ([], l)
    | some x =>
      let (ps, rest) := popList n l.dropLast
      (x :: ps, rest)

/-- Python `list.remove(x)` where `x` is known to be the first element
satisfying `q` (see the note at each use site): removes the first element
satisfying `q`. -/
def eraseFirstBy (q : α → Bool) : List α → List α
  | [] => []
  | x :: xs => if q x then xs else x :: eraseFirstBy q xs

/-- Mutation through the alias returned by a linear search (`get_player`,
`next(...)`): apply `f` to the first element satisfying `q`. -/
def updateFirst (q : α → Bool) (f : α → α) : List α → List α
  | [] => []
  | x :: xs => if q x then f x :: xs else x :: updateFirst q f xs

/-! ### Game state (state.py) -/

/-- state.py `PlayerState`. -/
structure PlayerState where
  playerId : Int
  name : String
  silver : Int := 0
  gold : Int := 0
  provisions : Int := 0
  iron : Int := 0
  livestock : Int := 0
  armour : Int := 0
  valkyrie : Int := 0
  vp : Int := 0
  hand : List TownsfolkCard := []
  crew : List TownsfolkCard := []
  offerings : List OfferingTile := []
  workerInHand : Option WorkerColor := none
  hasActed : Bool := false
  placedWorkerThisTurn : Option String := none
  buildingsUsedThisTurn : List String := []
deriving DecidableEq, Repr

/-- state.py `PlayerState.get_crew_count`. -/
def PlayerState.getCrewCount (p : PlayerState) : Nat := p.crew.length

/-- state.py `PlayerState.has_hero`. -/
def PlayerState.hasHero (p : PlayerState) : Bool := p.crew.any (·.isHero)

/-- state.py `PlayerState.get_final_vp`: base VP plus the sum of crew
card VP plus the sum of collected offering VP. -/
def PlayerState.getFinalVP (p : PlayerState) : Int :=
  p.vp + p.crew.foldl (fun a c => a + c.vp) 0 + p.offerings.foldl (fun a o => a + o.vp) 0

/-- state.py `WorkerPlacement`.  The color is an `Option` because the
Python constructor stores whatever `player.worker_in_hand` holds. -/
structure WorkerPlacement where
  buildingId : String
  workerColor : Option WorkerColor
  playerId : Int
deriving DecidableEq, Repr

/-- state.py `RaidState` (lines 124-130): exactly the four declared
fields; the class defines no methods. -/
structure RaidState where
  locationId : String
  sublocationId : String
  plunderRemaining : Int
  workerPresent : Option WorkerColor
deriving DecidableEq, Repr

/-- state.py `GameState`. -/
structure GameState where
  players : List PlayerState
  currentPlayerIdx : Nat := 0
  firstPlayerIdx : Nat := 0
  phase : GamePhase := .work
  roundNumber : Int := 1
  townsfolkDeck : List TownsfolkCard := []
  townsfolkDiscard : List TownsfolkCard := []
  offeringStack : List OfferingTile := []
  visibleOfferings : List OfferingTile := []
  workerPlacements : List WorkerPlacement := []
  raidStates : List RaidState := []
  neutralWorkers : List WorkerColor := []
  valkyriePool : Int := 18
  goldPool : Int := 18
  silverPool : Int := 32
  ironPool : Int := 18
  livestockPool : Int := 26
  provisionsPool : Int := 32
  gameEnded : Bool := false
  winnerId : Option Int := none
deriving DecidableEq, Repr

/-- state.py `GameState.get_player`: linear scan, first match by id. -/
def GameState.getPlayer (s : GameState) (pid : Int) : Option PlayerState :=
  s.players.find? (fun p => p.playerId == pid)

/-- state.py `GameState.get_worker_at_building`. -/
def GameState.getWorkerAtBuilding (s : GameState) (bid : String) : List WorkerPlacement :=
  s.workerPlacements.filter (fun wp => wp.buildingId == bid)

/-- state.py `GameState.get_raid_state`: linear scan, first match. -/
def GameState.getRaidState (s : GameState) (locId subId : String) : Option RaidState :=
  s.raidStates.find? (fun rs => rs.locationId == locId && rs.sublocationId == subId)

/-- Apply `f` to the first player with the given id (mutation through the
alias that `get_player` returns). -/
def updatePlayer (pid : Int) (f : PlayerState → PlayerState) (s : GameState) : GameState :=
  { s with players := updateFirst (fun p => p.playerId == pid) f s.players }

/-- state.py `GameState.draw_card`: reshuffle the discard pile into the
deck when the deck is empty, then pop from the end. -/
def GameState.drawCard (s : GameState) (g : Nat) :
    Option TownsfolkCard × GameState × Nat :=
  let dd : List TownsfolkCard × List TownsfolkCard × Nat :=
    if s.townsfolkDeck.isEmpty then
      ((shuffle s.townsfolkDiscard g).1, [], (shuffle s.townsfolkDiscard g).2)
    else
      (s.townsfolkDeck, s.townsfolkDiscard, g)
  (dd.1.getLast?,
   { s with townsfolkDeck := dd.1.dropLast, townsfolkDiscard := dd.2.1 },
   dd.2.2)

/-- state.py `GameState.discard_card`. -/
def GameState.discardCard (s : GameState) (c : TownsfolkCard) : GameState :=
  { s with townsfolkDiscard := s.townsfolkDiscard ++ [c] }

/-- Loop body of state.py `GameState.refill_offerings`. -/
def refillOfferingsGo : Nat → List OfferingTile → List OfferingTile →
    List OfferingTile × List OfferingTile
  | 0, stack, vis => (stack, vis)
  | n + 1, stack, vis =>
    if vis.length < 3 then
      match stack.getLast? with
      | some t => refillOfferingsGo n stack.dropLast (vis ++ [t])
      | none => (stack, vis)
    else
      (stack, vis)

/-- state.py `GameState.refill_offerings`: pop from the offering stack
onto the visible row until the row has 3 tiles or the stack is empty. -/
def GameState.refillOfferings (s : GameState) : GameState :=
  let r := refillOfferingsGo s.offeringStack.length s.offeringStack s.visibleOfferings
  { s with offeringStack := r.1, visibleOfferings := r.2 }

/-- state.py `GameState.next_player` (with a nonempty player list;
Python would divide by zero otherwise). -/
def GameState.nextPlayer (s : GameState) : GameState :=
  { s with currentPlayerIdx := (s.currentPlayerIdx + 1) % s.players.length }

/-- state.py `GameState.is_round_complete`. -/
def GameState.isRoundComplete (s : GameState) : Bool :=
  s.players.all (·.hasActed)

/-- state.py `GameState.start_new_round`. -/
def GameState.startNewRound (s : GameState) : GameState :=
  { s with
    roundNumber := s.roundNumber + 1
    players := s.players.map (fun p => { p with hasActed := false })
    currentPlayerIdx := s.firstPlayerIdx
    phase := .work }

/-- state.py `PlayerState.reset_turn_tracking` applied to the current
player (as `PickupWorkerAction.execute` / `RaidAction.execute` do). -/
def resetCurrentTurnTracking (s : GameState) : GameState :=
  match s.players.get? s.currentPlayerIdx with
  | none => s
  | some p =>
    { s with
      players := s.players.set s.currentPlayerIdx
        { p with placedWorkerThisTurn := none, buildingsUsedThisTurn := [] } }

/-! ### End conditions and winner (state.py lines 351-391) -/

/-- Python `str.startswith`, modelled on the character list. -/
def strStarts (s pre : String) : Bool :=
  pre.data.isPrefixOf s.data

/-- The fortress filter of state.py `check_end_conditions` (lines 354-360):
a raid state counts when its location id starts with `raid_008`,
`raid_009` or `raid_010` (the source comments label these Fortress 1-3). -/
def isFortressLoc (lid : String) : Bool :=
  strStarts lid "raid_008" || strStarts lid "raid_009" || strStarts lid "raid_010"

/-- The fortress plunder sum of state.py `check_end_conditions`. -/
def GameState.fortressPlunderSum (s : GameState) : Int :=
  (s.raidStates.filter (fun rs => isFortressLoc rs.locationId)).foldl
    (fun a rs => a + rs.plunderRemaining) 0

/-- One step of the scan in state.py `determine_winner`. -/
def winnerStep (acc : Int × Option PlayerState) (p : PlayerState) :
    Int × Option PlayerState :=
  if acc.1 < p.getFinalVP then (p.getFinalVP, some p) else acc

/-- state.py `GameState.determine_winner`: scan the players keeping the
first strict maximum of final VP (starting from -1); if a winner was
found, record its id and move to the game-end phase. -/
def GameState.determineWinner (s : GameState) : GameState :=
  match (s.players.foldl winnerStep (-1, none)).2 with
  | some p => { s with winnerId := some p.playerId, phase := .gameEnd }
  | none => s

/-- state.py `GameState.check_end_conditions`: returns the mutated state
and the boolean result.  The third condition (Valkyrie pool) is a
placeholder in the source and never fires. -/
def GameState.checkEndConditions (s : GameState) : GameState × Bool :=
  if s.fortressPlunderSum ≤ 1 then
    (({ s with gameEnded := true }).determineWinner, true)
  else if s.offeringStack.isEmpty then
    (({ s with gameEnded := true }).determineWinner, true)
  else
    (s, false)

/-! ### Initial state (state.py `GameState.create_initial_state`) -/

/-- One player's share of the initial deal: draw 5 cards from the end of
the deck, then discard the hand's last 2 cards to the cards-to-bottom
accumulator. -/
def dealOne (p : PlayerState) (deck bottom : List TownsfolkCard) :
    PlayerState × List TownsfolkCard × List TownsfolkCard :=
  let (drawn, deck') := popList 5 deck
  let hand := p.hand ++ drawn
  let (discarded, hand') := popList 2 hand
  ({ p with hand := hand' }, deck', bottom ++ discarded)

/-- The initial deal loop over all players, in player order. -/
def dealAll : List PlayerState → List TownsfolkCard → List TownsfolkCard →
    List PlayerState × List TownsfolkCard × List TownsfolkCard
  | [], deck, bottom => ([], deck, bottom)
  | p :: ps, deck, bottom =>
    let (p', deck', bottom') := dealOne p deck bottom
    let (ps', deck'', bottom'') := dealAll ps deck' bottom'
    (p' :: ps', deck'', bottom'')

/-- One neutral black worker for a named starting building (skipped
when the catalog does not have the name). -/
def neutralPlacementFor (ctx : Catalog) (nm : String) : List WorkerPlacement :=
  match ctx.getBuildingByName nm with
  | some b => [{ buildingId := b.id, workerColor := some .black, playerId := -1 }]
  | none => []

/-- The three neutral black workers placed on the named starting
buildings, in loop order. -/
def initialPlacements (ctx : Catalog) : List WorkerPlacement :=
  neutralPlacementFor ctx "Gate House" ++ neutralPlacementFor ctx "Town Hall" ++
    neutralPlacementFor ctx "Treasury"

/-- state.py `GameState.create_initial_state`. -/
def createInitialState (ctx : Catalog) (playerNames : List String) (seed : Nat) :
    GameState × Nat :=
  let players := (List.range playerNames.length).zip playerNames |>.map (fun iv =>
    { playerId := Int.ofNat iv.1
      name := iv.2
      silver := 2
      provisions := 0
      workerInHand := some .black : PlayerState })
  let sh := shuffle ctx.createDeck seed
  let da := dealAll players sh.1 []
  let deck := da.2.2 ++ da.2.1
  let off := shuffle ctx.offerings sh.2
  let pv := popList 3 off.1
  let raidStates := ctx.raids.flatMap (fun r =>
    r.sublocations.map (fun sub =>
      { locationId := r.id
        sublocationId := sub.id
        plunderRemaining := sub.plunder
        workerPresent := sub.workerOnSpot : RaidState }))
  let state : GameState :=
    { players := da.1
      currentPlayerIdx := 0
      firstPlayerIdx := 0
      phase := .work
      roundNumber := 1
      townsfolkDeck := deck
      townsfolkDiscard := []
      offeringStack := pv.2
      visibleOfferings := pv.1
      workerPlacements := initialPlacements ctx
      raidStates := raidStates
      neutralWorkers := [.grey, .grey, .grey, .white]
      gameEnded := false
      winnerId := none }
  (state, off.2)

/-! ### Resource bookkeeping (rules.py helpers, duplicated inline in
actions.py) -/

/-- One iteration of the rules.py `_grant_resources` loop. -/
def grantOne (p : PlayerState) (kv : String × Int) : PlayerState :=
  if kv.1 == "silver" then { p with silver := p.silver + kv.2 }
  else if kv.1 == "gold" then { p with gold := p.gold + kv.2 }
  else if kv.1 == "provisions" then { p with provisions := p.provisions + kv.2 }
  else if kv.1 == "iron" then { p with iron := p.iron + kv.2 }
  else if kv.1 == "livestock" then { p with livestock := p.livestock + kv.2 }
  else p

/-- rules.py `_grant_resources` (same if/elif chain is inlined in
actions.py lines 149-159 and 240-250): unknown resource names are
ignored. -/
def grantResources : PlayerState → ResMap → PlayerState
  | p, [] => p
  | p, kv :: rest => grantResources (grantOne p kv) rest

/-- rules.py `_take_resource`: floored at 0. -/
def takeResource (p : PlayerState) (resource : String) (amount : Int) : PlayerState :=
  if resource == "silver" then { p with silver := max 0 (p.silver - amount) }
  else if resource == "gold" then { p with gold := max 0 (p.gold - amount) }
  else if resource == "provisions" then { p with provisions := max 0 (p.provisions - amount) }
  else if resource == "iron" then { p with iron := max 0 (p.iron - amount) }
  else if resource == "livestock" then { p with livestock := max 0 (p.livestock - amount) }
  else p

/-- rules.py `_take_resources`. -/
def takeResources (p : PlayerState) (res : ResMap) : PlayerState :=
  res.foldl (fun p kv => takeResource p kv.1 kv.2) p

/-- rules.py `_has_resources`: only the five known resource names are
checked. -/
def hasResources (p : PlayerState) (res : ResMap) : Bool :=
  res.all (fun kv =>
    if kv.1 == "silver" then decide (kv.2 ≤ p.silver)
    else if kv.1 == "gold" then decide (kv.2 ≤ p.gold)
    else if kv.1 == "provisions" then decide (kv.2 ≤ p.provisions)
    else if kv.1 == "iron" then decide (kv.2 ≤ p.iron)
    else if kv.1 == "livestock" then decide (kv.2 ≤ p.livestock)
    else true)

/-- The `choice`-resolution of a per-color gain entry: Python takes
`color_data["choice"][0]` (the source would raise IndexError on an empty
choice list; such catalog entries do not occur). -/
def resolveColorGain : ColorGain → ResMap
  | .direct res => res
  | .choice options => options.headD []

/-- The resource mapping a `gain_by_worker_color` action grants for a
worker color: `by_color.get(color.value, {})`, then choice resolution. -/
def gainByColorRes (byColor : List (String × ColorGain)) (color : WorkerColor) : ResMap :=
  match dictFind color.value byColor with
  | some cg => resolveColorGain cg
  | none => []

/-- Iterated drawing of cards into the player's hand (skipping when the
deck and discard are exhausted). -/
def drawCardsToPlayer : Nat → Int → GameState → Nat → GameState × Nat
  | 0, _, s, g => (s, g)
  | n + 1, pid, s, g =>
    let r := s.drawCard g
    let s2 :=
      match r.1 with
      | some c => updatePlayer pid (fun p => { p with hand := p.hand ++ [c] }) r.2.1
      | none => r.2.1
    drawCardsToPlayer n pid s2 r.2.2

/-- actions.py `PlaceWorkerAction._execute_building_action` (the same
logic is inlined in `PickupWorkerAction.execute`, lines 219-250).  The
worker color is an `Option`; a `gain_by_worker_color` action with no
worker color raises (`worker_color.value` on `None`). -/
def executeBuildingEffect (b : VillageBuilding) (color? : Option WorkerColor)
    (pid : Int) (s : GameState) (g : Nat) : GameState × Nat × Option PyErr :=
  match b.effect with
  | .drawCards amount =>
    ((drawCardsToPlayer amount pid s g).1, (drawCardsToPlayer amount pid s g).2, none)
  | .gainByWorkerColor byColor =>
    match color? with
    | none => (s, g, some .attributeError)
    | some color =>
      (updatePlayer pid (fun p => grantResources p (gainByColorRes byColor color)) s, g, none)
  | .otherEffect _ => (s, g, none)

/-! ### rules.py effect resolution (no callers in the source) -/

/-- rules.py `RulesEngine.calculate_raid_strength` (lines 306-356):
base strength of each selected crew card plus dynamic-strength and
raid-type bonuses.  This function has no callers anywhere in the
source tree. -/
def calculateRaidStrength (ctx : Catalog) (player : PlayerState)
    (crewIds : List String) (raidLocationId : String) : Int :=
  let selectedCrew := player.crew.filter (fun c => crewIds.contains c.id)
  selectedCrew.foldl (fun total card =>
    let base := card.strength
    let base :=
      match card.hireCrewAction with
      | .dynamicStrength condition divisor bonusPer =>
        if condition == "armour_count" then
          base + (Int.fdiv player.armour divisor) * bonusPer
        else if condition == "crew_count" then
          base + (Int.ofNat (selectedCrew.filter (fun c => c.id != card.id)).length) * bonusPer
        else if condition == "valkyrie_count" then
          base + (Int.fdiv player.valkyrie divisor) * bonusPer
        else base
      | .raidStrengthBonus condition raidType bonus =>
        match ctx.getRaid raidLocationId with
        | some raid =>
          if condition == "raid_type" && raid.type == raidType then base + bonus else base
        | none => base
      | .otherHire _ => base
    total + base) 0

/-- rules.py `RulesEngine.resolve_town_hall_effect` (lines 205-304),
acting on the first player with the given id.  This function has no
callers anywhere in the source tree.  Unimplemented/choice-required
kinds are no-ops; `collect_from_opponents` consumes one PRNG value per
opponent (the source would raise IndexError when its options list is
empty; such cards do not occur). -/
def resolveTownHallEffect (s : GameState) (pid : Int) (eff : THEffect) (g : Nat) :
    GameState × Nat :=
  match eff with
  | .gainResource resource amount =>
    if resource == "armour" then
      (updatePlayer pid (fun p => { p with armour := min 10 (p.armour + amount) }) s, g)
    else if resource == "provisions" then
      (updatePlayer pid (fun p => { p with provisions := p.provisions + amount }) s, g)
    else
      (updatePlayer pid (fun p => grantResources p [(resource, amount)]) s, g)
  | .gainResources resources =>
    (updatePlayer pid (fun p => grantResources p resources) s, g)
  | .opponentsLoseResource resource amount =>
    ({ s with players := s.players.map (fun q =>
        if q.playerId == pid then q else takeResource q resource amount) }, g)
  | .trade give receive =>
    (updatePlayer pid (fun p =>
      if hasResources p give then grantResources (takeResources p give) receive else p) s, g)
  | .drawCardsTH amount =>
    drawCardsToPlayer amount pid s g
  | .manipulateOfferings =>
    if s.visibleOfferings.length == 3 then
      let s1 := { s with
        offeringStack := s.visibleOfferings.reverse ++ s.offeringStack
        visibleOfferings := [] }
      (s1.refillOfferings, g)
    else (s, g)
  | .collectFromOpponents options amount =>
    (s.players.foldl (fun (acc : GameState × Nat) q =>
      if q.playerId == pid then acc
      else
        let (v, g') := rngNext acc.2
        match options.get? (v % options.length) with
        | none => (acc.1, g')
        | some chosen =>
          if hasResources q [(chosen, amount)] then
            let s1 := updatePlayer q.playerId (fun r => takeResource r chosen amount) acc.1
            let s2 := updatePlayer pid (fun r => grantResources r [(chosen, amount)]) s1
            (s2, g')
          else (acc.1, g')) (s, g))
  | _ => (s, g)

/-! ### Action protocol (actions.py) -/

/-- The closed set of player actions (actions.py dataclasses). -/
inductive Action where
  | placeWorker (playerId : Int) (buildingId : String)
  | pickupWorker (playerId : Int) (buildingId : String)
  | hireCrew (playerId : Int) (cardId : String) (discardCrewId : Option String)
  | playCardTownHall (playerId : Int) (cardId : String)
  | raid (playerId : Int) (locationId : String) (sublocationId : String)
      (crewIds : List String)
deriving DecidableEq, Repr

/-- Python truthiness of the optional `discard_crew_id` string
(`if not self.discard_crew_id`): `None` and the empty string are falsy. -/
def optStrTruthy : Option String → Bool
  | none => false
  | some s => !s.isEmpty

/-- actions.py `PlaceWorkerAction.is_legal`. -/
def isLegalPlaceWorker (ctx : Catalog) (pid : Int) (bid : String) (s : GameState) : Bool :=
  match s.getPlayer pid with
  | none => false
  | some player =>
    match player.workerInHand with
    | none => false
    | some color =>
      if player.placedWorkerThisTurn.isSome then false
      else
        match ctx.getBuilding bid with
        | none => false
        | some building =>
          if !building.allowsWorkerColor color.value then false
          else if building.workerSlots ≤ Int.ofNat (s.getWorkerAtBuilding bid).length then false
          else true

/-- The "mark building used" step shared by place and pickup
(actions.py lines 120-121 and 253-254). -/
def markBuildingUsed (pid : Int) (bid : String) (s : GameState) : GameState :=
  updatePlayer pid (fun p =>
    if p.buildingsUsedThisTurn.contains bid then p
    else { p with buildingsUsedThisTurn := p.buildingsUsedThisTurn ++ [bid] }) s

/-- The placement record appended by `PlaceWorkerAction.execute`. -/
def newPlacement (pid : Int) (bid : String) (player : PlayerState) : WorkerPlacement :=
  { buildingId := bid, workerColor := player.workerInHand, playerId := pid }

/-- The state after the placement bookkeeping of
`PlaceWorkerAction.execute` (append the placement, record the turn's
placement, clear the held worker). -/
def placedState (pid : Int) (bid : String) (player : PlayerState) (s : GameState) :
    GameState :=
  updatePlayer pid
    (fun p => { p with placedWorkerThisTurn := some bid, workerInHand := none })
    { s with workerPlacements := s.workerPlacements ++ [newPlacement pid bid player] }

/-- actions.py `PlaceWorkerAction.execute`: append the placement, record
the turn's placement, clear the held worker, resolve the building
effect, mark the building used. -/
def executePlaceWorker (ctx : Catalog) (pid : Int) (bid : String)
    (s : GameState) (g : Nat) : GameState × Nat × Option PyErr :=
  match s.getPlayer pid with
  | none => (s, g, some .attributeError)
  | some player =>
    let s2 := placedState pid bid player s
    match ctx.getBuilding bid with
    | none => (s2, g, some .attributeError)
    | some building =>
      let r := executeBuildingEffect building player.workerInHand pid s2 g
      match r.2.2 with
      | some e => (r.1, r.2.1, some e)
      | none => (markBuildingUsed pid bid r.1, r.2.1, none)

/-- actions.py `PickupWorkerAction.is_legal`. -/
def isLegalPickupWorker (pid : Int) (bid : String) (s : GameState) : Bool :=
  match s.getPlayer pid with
  | none => false
  | some player =>
    if player.workerInHand.isSome then false
    else
      match player.placedWorkerThisTurn with
      | none => false
      | some placedBid =>
        if placedBid == bid then false
        else if player.buildingsUsedThisTurn.contains bid then false
        else decide (0 < (s.getWorkerAtBuilding bid).length)

/-- Hand-limit enforcement at turn end (actions.py lines 260-263 and
517-519): pop cards off the end of the hand onto the discard pile until
the hand has at most 8 cards. -/
def enforceHandLimit (pid : Int) (s : GameState) : GameState :=
  match s.getPlayer pid with
  | none => s
  | some p =>
    let pp := popList (p.hand.length - 8) p.hand
    let s1 := updatePlayer pid (fun q => { q with hand := pp.2 }) s
    { s1 with townsfolkDiscard := s1.townsfolkDiscard ++ pp.1 }

/-- The turn-ending tail shared by pickup and raid (actions.py lines
256-274 and 513-530): set has-acted, enforce the hand cap, advance to
the next player, reset that player's turn tracking, and roll the round
over when complete. -/
def endTurnTail (pid : Int) (s : GameState) : GameState :=
  let s1 := updatePlayer pid (fun p => { p with hasActed := true }) s
  let s2 := enforceHandLimit pid s1
  let s3 := s2.nextPlayer
  let s4 := resetCurrentTurnTracking s3
  if s4.isRoundComplete then s4.startNewRound else s4

/-- actions.py `PickupWorkerAction.execute`: remove the first worker at
the building (workers are unowned), put its color in the player's hand,
resolve the building effect (inlined copy in the source), mark the
building used, and end the turn. -/
def executePickupWorker (ctx : Catalog) (pid : Int) (bid : String)
    (s : GameState) (g : Nat) : GameState × Nat × Option PyErr :=
  match (s.getWorkerAtBuilding bid).head? with
  | none => (s, g, none)
  | some worker =>
    let s1 := { s with
      workerPlacements := eraseFirstBy (fun wp => wp.buildingId == bid) s.workerPlacements }
    match s.getPlayer pid with
    | none => (s1, g, some .attributeError)
    | some _ =>
      let s2 := updatePlayer pid (fun p => { p with workerInHand := worker.workerColor }) s1
      match ctx.getBuilding bid with
      | none => (s2, g, some .attributeError)
      | some building =>
        let r := executeBuildingEffect building worker.workerColor pid s2 g
        match r.2.2 with
        | some e => (r.1, r.2.1, some e)
        | none => (endTurnTail pid (markBuildingUsed pid bid r.1), r.2.1, none)

/-- actions.py `HireCrewAction.is_legal`. -/
def isLegalHireCrew (pid : Int) (cardId : String) (discardCrewId : Option String)
    (s : GameState) : Bool :=
  match s.getPlayer pid with
  | none => false
  | some player =>
    match player.hand.find? (fun c => c.id == cardId) with
    | none => false
    | some card =>
      if player.silver < card.cost then false
      else if 5 ≤ player.getCrewCount && !optStrTruthy discardCrewId then false
      else if card.isHero && player.hasHero then false
      else true

/-- The crew list after the optional discard step of
`HireCrewAction.execute` (the discard happens only when a truthy
`discard_crew_id` names a crew card the player owns). -/
def crewAfterDiscard (player : PlayerState) (discardCrewId : Option String) :
    List TownsfolkCard :=
  if optStrTruthy discardCrewId then
    match discardCrewId with
    | some did =>
      match player.crew.find? (fun c => c.id == did) with
      | some _ => eraseFirstBy (fun c => c.id == did) player.crew
      | none => player.crew
    | none => player.crew
  else player.crew

/-- The crew cards moved to the shared discard pile by the optional
discard step of `HireCrewAction.execute`. -/
def crewDiscarded (player : PlayerState) (discardCrewId : Option String) :
    List TownsfolkCard :=
  if optStrTruthy discardCrewId then
    match discardCrewId with
    | some did =>
      match player.crew.find? (fun c => c.id == did) with
      | some dc => [dc]
      | none => []
    | none => []
  else []

/-- The hiring player after `HireCrewAction.execute`: card removed from
the hand (Python `list.remove` on the first id match), optional crew
discard, cost paid, card appended to the crew. -/
def hiredPlayer (player : PlayerState) (card : TownsfolkCard) (cardId : String)
    (discardCrewId : Option String) : PlayerState :=
  { player with
    hand := eraseFirstBy (fun c => c.id == cardId) player.hand
    crew := crewAfterDiscard player discardCrewId ++ [card]
    silver := player.silver - card.cost }

/-- actions.py `HireCrewAction.execute`: remove the card from the hand,
discard the named crew card if it is owned, pay the cost, append to
crew.  No hire effect is resolved (actions.py lines 342-343 are a
comment). -/
def executeHireCrew (pid : Int) (cardId : String) (discardCrewId : Option String)
    (s : GameState) : GameState × Option PyErr :=
  match s.getPlayer pid with
  | none => (s, some .attributeError)
  | some player =>
    match player.hand.find? (fun c => c.id == cardId) with
    | none => (s, none)
    | some card =>
      let s1 := updatePlayer pid (fun _ => hiredPlayer player card cardId discardCrewId) s
      ({ s1 with townsfolkDiscard := s1.townsfolkDiscard ++ crewDiscarded player discardCrewId },
       none)

/-- actions.py `PlayCardTownHallAction.is_legal`: the card is looked up
in the hand, then in the crew; heroes (town-hall type
`hero_no_discard`) cannot be played. -/
def isLegalPlayCardTownHall (pid : Int) (cardId : String) (s : GameState) : Bool :=
  match s.getPlayer pid with
  | none => false
  | some player =>
    match player.hand.find? (fun c => c.id == cardId) with
    | some card => card.isPlayableAtTownHall
    | none =>
      match player.crew.find? (fun c => c.id == cardId) with
      | some card => card.isPlayableAtTownHall
      | none => false

/-- actions.py `PlayCardTownHallAction.execute`: remove the card from
the hand (or crew) and discard it.  The source does not resolve the
town-hall effect: lines 401-402 are only a comment, and
`RulesEngine.resolve_town_hall_effect` has no callers. -/
def executePlayCardTownHall (pid : Int) (cardId : String) (s : GameState) :
    GameState × Option PyErr :=
  match s.getPlayer pid with
  | none => (s, some .attributeError)
  | some player =>
    match player.hand.find? (fun c => c.id == cardId) with
    | some card =>
      let s1 := updatePlayer pid
        (fun p => { p with hand := eraseFirstBy (fun c => c.id == cardId) p.hand }) s
      ({ s1 with townsfolkDiscard := s1.townsfolkDiscard ++ [card] }, none)
    | none =>
      match player.crew.find? (fun c => c.id == cardId) with
      | some card =>
        let s1 := updatePlayer pid
          (fun p => { p with crew := eraseFirstBy (fun c => c.id == cardId) p.crew }) s
        ({ s1 with townsfolkDiscard := s1.townsfolkDiscard ++ [card] }, none)
      | none => (s, none)

/-- actions.py `RaidAction.is_legal` (lines 423-466).  The final check,
`raid_state.get_plunder_remaining()`, calls a method that `RaidState`
(state.py lines 124-130) does not define, so reaching it raises
`AttributeError`; when the sublocation is not found, the `or`
short-circuits and the method is never called. -/
def isLegalRaid (ctx : Catalog) (pid : Int) (locId subId : String)
    (crewIds : List String) (s : GameState) : Except PyErr Bool :=
  match s.getPlayer pid with
  | none => .ok false
  | some player =>
    match player.workerInHand with
    | none => .ok false
    | some color =>
      if player.placedWorkerThisTurn.isNone then .ok false
      else
        match ctx.getRaid locId with
        | none => .ok false
        | some raid =>
          if !raid.allowsWorkerColor color.value then .ok false
          else if Int.ofNat crewIds.length < raid.requirements.minCrew then .ok false
          else if !crewIds.all (fun cid => player.crew.any (fun c => c.id == cid)) then .ok false
          else if player.provisions < raid.requirements.provisions then .ok false
          else if player.gold < raid.requirements.gold then .ok false
          else
            match s.getRaidState locId subId with
            | none => .ok false
            | some _ => .error .attributeError

/-- The crew-strength sum computed inside actions.py
`RaidAction.execute` (lines 481-483): the plain sum of the base
strengths of the selected crew, with no dynamic bonuses. -/
def raidExecuteCrewStrength (player : PlayerState) (crewIds : List String) : Int :=
  (player.crew.filter (fun c => crewIds.contains c.id)).foldl
    (fun acc c => acc + c.strength) 0

/-- actions.py `RaidAction.execute` (lines 468-532): pay costs, sum the
selected crew's base strengths, roll the dice, add the tier-table VP —
and then raise `AttributeError` at line 496, because
`raid_state.plunder_resources` is not an attribute of `RaidState`
(state.py lines 124-130).  The state mutated so far is kept, mirroring
Python's in-place mutation. -/
def executeRaid (ctx : Catalog) (pid : Int) (locId subId : String)
    (crewIds : List String) (s : GameState) (g : Nat) :
    GameState × Nat × Option PyErr :=
  match s.getPlayer pid, ctx.getRaid locId with
  | some player, some raid =>
    let s1 := updatePlayer pid (fun p =>
      { p with
        provisions := p.provisions - raid.requirements.provisions
        gold := p.gold - raid.requirements.gold }) s
    let dice := rollDice raid.diceAdded g
    let vpEarned := raid.getVpForStrength (raidExecuteCrewStrength player crewIds + dice.1)
    let s2 := updatePlayer pid (fun p => { p with vp := p.vp + vpEarned }) s1
    (s2, dice.2, some .attributeError)
  | _, _ => (s, g, some .attributeError)

/-- rules.py `RulesEngine.validate_action` / engine.py
`GameEngine.is_action_legal`: dispatch to the action's own `is_legal`.
Only `RaidAction.is_legal` can raise. -/
def validateAction (ctx : Catalog) (a : Action) (s : GameState) : Except PyErr Bool :=
  match a with
  | .placeWorker pid bid => .ok (isLegalPlaceWorker ctx pid bid s)
  | .pickupWorker pid bid => .ok (isLegalPickupWorker pid bid s)
  | .hireCrew pid cid did => .ok (isLegalHireCrew pid cid did s)
  | .playCardTownHall pid cid => .ok (isLegalPlayCardTownHall pid cid s)
  | .raid pid locId subId crewIds => isLegalRaid ctx pid locId subId crewIds s

/-- Dispatch to the action's `execute`. -/
def executeAction (ctx : Catalog) (a : Action) (s : GameState) (g : Nat) :
    GameState × Nat × Option PyErr :=
  match a with
  | .placeWorker pid bid => executePlaceWorker ctx pid bid s g
  | .pickupWorker pid bid => executePickupWorker ctx pid bid s g
  | .hireCrew pid cid did =>
    ((executeHireCrew pid cid did s).1, g, (executeHireCrew pid cid did s).2)
  | .playCardTownHall pid cid =>
    ((executePlayCardTownHall pid cid s).1, g, (executePlayCardTownHall pid cid s).2)
  | .raid pid locId subId crewIds => executeRaid ctx pid locId subId crewIds s g

/-! ### Engine facade (engine.py) -/

/-- engine.py `GameEngine`: the current state plus the action and state
histories, with the explicit PRNG state. -/
structure Engine where
  state : GameState
  actionHistory : List Action
  stateHistory : List GameState
  rng : Nat
deriving DecidableEq, Repr

/-- engine.py `GameEngine.reset`: fresh initial state, cleared
histories, the initial state deep-copied into the state history. -/
def initEngine (ctx : Catalog) (names : List String) (seed : Nat) : Engine :=
  { state := (createInitialState ctx names seed).1
    actionHistory := []
    stateHistory := [(createInitialState ctx names seed).1]
    rng := (createInitialState ctx names seed).2 }

/-- engine.py `GameEngine.take_action` (lines 62-89): validate first —
an illegal action raises `ValueError` before anything is mutated; then
execute (an exception during execution keeps the partially mutated
state and skips the history append); then append the action and a deep
copy of the state to the histories; then run the end-condition check
(which may mutate the state after the history snapshot). -/
def takeAction (ctx : Catalog) (e : Engine) (a : Action) :
    Engine × Except PyErr GameState :=
  match validateAction ctx a e.state with
  | .error err => (e, .error err)
  | .ok false => (e, .error .valueError)
  | .ok true =>
    let r := executeAction ctx a e.state e.rng
    match r.2.2 with
    | some err => ({ e with state := r.1, rng := r.2.1 }, .error err)
    | none =>
      let s2 := if r.1.gameEnded then r.1 else (r.1.checkEndConditions).1
      ({ state := s2
         rng := r.2.1
         actionHistory := e.actionHistory ++ [a]
         stateHistory := e.stateHistory ++ [r.1] }, .ok s2)

/-- The engine states reachable through the facade: the freshly reset
engine, plus anything a `take_action` call (successful or not) can leave
behind. -/
inductive Reachable (ctx : Catalog) : Engine → Prop
  | init (names : List String) (seed : Nat) : Reachable ctx (initEngine ctx names seed)
  | step {e : Engine} (a : Action) : Reachable ctx e → Reachable ctx (takeAction ctx e a).1

/-- A complete run: construct the initial engine from the player names
and the seed, then apply a fixed sequence of chosen actions. -/
def runGame (ctx : Catalog) (names : List String) (seed : Nat)
    (acts : List Action) : Engine :=
  acts.foldl (fun e a => (takeAction ctx e a).1) (initEngine ctx names seed)

/-! ### Concrete fixtures used to instantiate the theorems -/

/-- A small concrete catalog (the data files are supplied at startup and
are out of the engine's scope; any catalog works for the claims). -/
def testCatalog : Catalog :=
  { buildings := [
      { id := "b1", name := "Mill", workerSlots := 2,
        effect := .otherEffect "none", workerRequirement := none },
      { id := "b2", name := "Silversmith", workerSlots := 1,
        effect := .otherEffect "none", workerRequirement := none },
      { id := "gh", name := "Gate House", workerSlots := 2,
        effect := .otherEffect "none", workerRequirement := none },
      { id := "th", name := "Town Hall", workerSlots := 2,
        effect := .otherEffect "none", workerRequirement := none },
      { id := "tr", name := "Treasury", workerSlots := 2,
        effect := .otherEffect "none", workerRequirement := none }]
    offerings := [
      { id := "o1", requirements := [], vp := 1 },
      { id := "o2", requirements := [], vp := 2 },
      { id := "o3", requirements := [], vp := 1 },
      { id := "o4", requirements := [], vp := 3 }]
    raids := [
      { id := "raid_001_h1", name := "Harbor 1", type := "harbor",
        requirements := { minCrew := 0, provisions := 0, gold := 0, workerColors := ["black"] }
        vpTiers := [{ minStrength := 0, vp := 1 }], diceAdded := 2,
        sublocations := [{ id := "s1", plunder := 3, workerOnSpot := none }] },
      { id := "raid_008_f1", name := "Fortress 1", type := "fortress",
        requirements := { minCrew := 0, provisions := 0, gold := 0,
                          workerColors := ["black", "grey", "white"] }
        vpTiers := [{ minStrength := 0, vp := 1 }], diceAdded := 1,
        sublocations := [{ id := "s1", plunder := 5, workerOnSpot := none }] }]
    cards := [] }

/-- The freshly reset two-player engine on the test catalog. -/
def e0 : Engine := initEngine testCatalog ["Alice", "Bob"] 7

/-- An action trace in which player 1 places a worker while it is player
0's turn (nothing in `PlaceWorkerAction.is_legal` checks whose turn it
is), after which player 0 places and picks up, ending player 0's turn. -/
def outOfTurnTrace : List Action :=
  [.placeWorker 1 "b1", .placeWorker 0 "b2", .pickupWorker 0 "b1"]

/-- The engine after the out-of-turn trace: player 1's turn has just
begun and player 1 holds no worker. -/
def eAfter3 : Engine := runGame testCatalog ["Alice", "Bob"] 7 outOfTurnTrace

/-- A crew card whose hire effect is dynamic strength (+1 per other
selected crew member). -/
def cardDyn : TownsfolkCard :=
  { id := "d1", name := "Berserker", cost := 1, strength := 2, deckCount := 1, vp := 0,
    hireCrewAction := .dynamicStrength "crew_count" 1 1,
    townHallAction := .otherTH "none", isHero := false }

/-- A crew card with no special effects. -/
def cardPlain : TownsfolkCard :=
  { id := "p1", name := "Fighter", cost := 1, strength := 3, deckCount := 1, vp := 0,
    hireCrewAction := .otherHire "none", townHallAction := .otherTH "none", isHero := false }

/-- A player holding both raid-fixture crew cards, mid-turn with a
worker in hand after having placed one. -/
def pC3 : PlayerState :=
  { playerId := 0, name := "Alice", crew := [cardDyn, cardPlain],
    workerInHand := some .black, placedWorkerThisTurn := some "b2" }

/-- A state in which `pC3` may raid the fortress sublocation. -/
def sC3 : GameState :=
  { players := [pC3]
    raidStates := [{ locationId := "raid_008_f1", sublocationId := "s1",
                     plunderRemaining := 5, workerPresent := none }] }

/-- A card whose town-hall effect is gain-2-silver. -/
def cardTH : TownsfolkCard :=
  { id := "c1", name := "Smith", cost := 1, strength := 0, deckCount := 1, vp := 0,
    hireCrewAction := .otherHire "none",
    townHallAction := .gainResource "silver" 2, isHero := false }

/-- A state whose single player holds `cardTH` in hand with 2 silver. -/
def sC4 : GameState :=
  { players := [{ playerId := 0, name := "Alice", silver := 2, hand := [cardTH] }] }

/-- A generic cheap non-hero crew card. -/
def crewCard (i : String) : TownsfolkCard :=
  { id := i, name := i, cost := 1, strength := 1, deckCount := 1, vp := 0,
    hireCrewAction := .otherHire "none", townHallAction := .otherTH "none", isHero := false }

/-- A state whose single player already has 5 crew and one hireable
card in hand. -/
def sC5 : GameState :=
  { players := [{ playerId := 0, name := "Alice", silver := 2,
                  hand := [crewCard "h1"],
                  crew := [crewCard "c1", crewCard "c2", crewCard "c3",
                           crewCard "c4", crewCard "c5"] }] }

/-! ### Derived definitions used by the theorems -/

/-- Whether the catalog lists the given raid location id with type
`fortress`. -/
def fortressTypeFlag (ctx : Catalog) (lid : String) : Bool :=
  match ctx.getRaid lid with
  | some r => r.type == "fortress"
  | none => false

/-- Modelled from the spec: the game-end plunder sum ranges over all
"fortress-type raid sublocations" (spec section 4.2); the catalog data
files that connect the id prefixes used by the code to the fortress
type are not part of the engine sources, so the type-based sum is
defined here from the spec's words for comparison with the code's
prefix-based sum. -/
def fortressTypePlunderSum (ctx : Catalog) (s : GameState) : Int :=
  (s.raidStates.filter (fun rs => fortressTypeFlag ctx rs.locationId)).foldl
    (fun a rs => a + rs.plunderRemaining) 0

/-- Worker-creation tracking between two states: any player slot that
holds a worker in the second state already held one in the first. -/
def NNW (s t : GameState) : Prop :=
  ∀ i p', t.players.get? i = some p' → p'.workerInHand ≠ none →
    ∃ p, s.players.get? i = some p ∧ p.workerInHand ≠ none

/-! ### Helper lemmas -/

theorem nnw_refl (s : GameState) : NNW s s :=
  fun _ p' h hne => ⟨p', h, hne⟩

theorem nnw_of_players_eq {s t : GameState} (h : t.players = s.players) : NNW s t :=
  fun i p' hp' hne => ⟨p', h ▸ hp', hne⟩

theorem nnw_trans {s t u : GameState} (h1 : NNW s t) (h2 : NNW t u) : NNW s u := by
  intro i p' hp' hne
  obtain ⟨q, hq, hqn⟩ := h2 i p' hp' hne
  exact h1 i q hq hqn

theorem updateFirst_get? (q : α → Bool) (f : α → α) :
    ∀ (l : List α) (i : Nat) (x' : α), (updateFirst q f l).get? i = some x' →
      ∃ x, l.get? i = some x ∧ (x' = x ∨ x' = f x) := by
  intro l
  induction l with
  | nil => intro i x' h; simp [updateFirst] at h
  | cons a as ih =>
    intro i x' h
    by_cases hq : q a
    · simp only [updateFirst, if_pos hq] at h
      cases i with
      | zero =>
        refine ⟨a, rfl, Or.inr ?_⟩
        simpa using h.symm
      | succ i' => exact ⟨x', by simpa using h, Or.inl rfl⟩
    · simp only [updateFirst, if_neg hq] at h
      cases i with
      | zero =>
        refine ⟨a, rfl, Or.inl ?_⟩
        simpa using h.symm
      | succ i' =>
        obtain ⟨x, hx, hor⟩ := ih i' x' (by simpa using h)
        exact ⟨x, by simpa using hx, hor⟩

theorem find?_updateFirst_spec (q : α → Bool) (f : α → α) :
    ∀ (l : List α) (x : α), l.find? q = some x →
      ∃ j, l.get? j = some x ∧ q x = true ∧
        (updateFirst q f l).get? j = some (f x) ∧
        ∀ k, k ≠ j → (updateFirst q f l).get? k = l.get? k := by
  intro l
  induction l with
  | nil => intro x h; simp at h
  | cons a as ih =>
    intro x h
    by_cases hq : q a
    · rw [List.find?_cons_of_pos _ hq] at h
      obtain rfl : a = x := by injection h
      have hstep : updateFirst q f (a :: as) = f a :: as := by
        simp [updateFirst, hq]
      refine ⟨0, rfl, hq, by rw [hstep]; rfl, ?_⟩
      intro k hk
      cases k with
      | zero => exact absurd rfl hk
      | succ k' => rw [hstep]; rfl
    · rw [List.find?_cons_of_neg _ hq] at h
      obtain ⟨j, hj, hqx, hupd, hoth⟩ := ih x h
      have hstep : updateFirst q f (a :: as) = a :: updateFirst q f as := by
        simp [updateFirst, hq]
      refine ⟨j + 1, hj, hqx, ?_, ?_⟩
      · rw [hstep]
        exact hupd
      · intro k hk
        cases k with
        | zero => rw [hstep]; rfl
        | succ k' =>
          have hne' : k' ≠ j := fun hkj => hk (by rw [hkj])
          rw [hstep]
          exact hoth k' hne'

theorem eraseFirstBy_sublist (q : α → Bool) :
    ∀ (l : List α), (eraseFirstBy q l).Sublist l := by
  intro l
  induction l with
  | nil => simp [eraseFirstBy]
  | cons a as ih =>
    by_cases hq : q a
    · simp only [eraseFirstBy, if_pos hq]
      exact (List.Sublist.refl as).cons a
    · simp only [eraseFirstBy, if_neg hq]
      exact ih.cons₂ a

theorem nnw_updateFirst {s : GameState} {t : GameState} (pid : Int)
    (f : PlayerState → PlayerState)
    (hpl : t.players = updateFirst (fun p => p.playerId == pid) f s.players)
    (hf : ∀ x, (f x).workerInHand ≠ none → x.workerInHand ≠ none) : NNW s t := by
  intro i p' hp' hne
  rw [hpl] at hp'
  obtain ⟨x, hx, hor⟩ := updateFirst_get? _ _ s.players i p' hp'
  rcases hor with h | h
  · refine ⟨x, hx, ?_⟩
    rw [← h]
    exact hne
  · refine ⟨x, hx, hf x ?_⟩
    rw [← h]
    exact hne

theorem nnw_updatePlayer (pid : Int) (f : PlayerState → PlayerState) (s : GameState)
    (hf : ∀ x, (f x).workerInHand ≠ none → x.workerInHand ≠ none) :
    NNW s (updatePlayer pid f s) :=
  nnw_updateFirst pid f rfl hf

theorem grantOne_workerInHand (p : PlayerState) (kv : String × Int) :
    (grantOne p kv).workerInHand = p.workerInHand := by
  unfold grantOne
  split_ifs <;> rfl

theorem grantResources_workerInHand :
    ∀ (res : ResMap) (p : PlayerState),
      (grantResources p res).workerInHand = p.workerInHand := by
  intro res
  induction res with
  | nil => intro p; rfl
  | cons kv rest ih =>
    intro p
    rw [show grantResources p (kv :: rest) = grantResources (grantOne p kv) rest from rfl,
      ih, grantOne_workerInHand]

theorem drawCard_players (s : GameState) (g : Nat) :
    (s.drawCard g).2.1.players = s.players := rfl

theorem drawCardsToPlayer_nnw :
    ∀ (n : Nat) (pid : Int) (s : GameState) (g : Nat),
      NNW s (drawCardsToPlayer n pid s g).1 := by
  intro n
  induction n with
  | zero => intro pid s g; exact nnw_refl s
  | succ n ih =>
    intro pid s g
    have h1 : NNW s (s.drawCard g).2.1 := nnw_of_players_eq (drawCard_players s g)
    have hstep : drawCardsToPlayer (n + 1) pid s g =
        drawCardsToPlayer n pid
          (match (s.drawCard g).1 with
           | some c =>
             updatePlayer pid (fun p => { p with hand := p.hand ++ [c] }) (s.drawCard g).2.1
           | none => (s.drawCard g).2.1)
          (s.drawCard g).2.2 := rfl
    rw [hstep]
    cases hc : (s.drawCard g).1 with
    | none => exact nnw_trans h1 (ih pid _ _)
    | some c =>
      refine nnw_trans h1 (nnw_trans ?_ (ih pid _ _))
      exact nnw_updateFirst pid (fun p => { p with hand := p.hand ++ [c] }) rfl
        (fun x hx => hx)

theorem executeBuildingEffect_nnw (b : VillageBuilding) (color? : Option WorkerColor)
    (pid : Int) (s : GameState) (g : Nat) :
    NNW s (executeBuildingEffect b color? pid s g).1 := by
  unfold executeBuildingEffect
  split
  next amount heq => exact drawCardsToPlayer_nnw amount pid s g
  next byColor heq =>
    split
    · exact nnw_refl s
    next color =>
      exact nnw_updateFirst pid
        (fun p => grantResources p (gainByColorRes byColor color)) rfl
        (fun x hx => by rwa [grantResources_workerInHand] at hx)
  next ty heq => exact nnw_refl s

theorem determineWinner_players (s : GameState) :
    (s.determineWinner).players = s.players := by
  unfold GameState.determineWinner
  split <;> rfl

theorem checkEnd_players (s : GameState) :
    ((s.checkEndConditions).1).players = s.players := by
  unfold GameState.checkEndConditions
  split_ifs <;> simp [determineWinner_players]

theorem placedState_nnw (pid : Int) (bid : String) (player : PlayerState)
    (s : GameState) : NNW s (placedState pid bid player s) :=
  nnw_updateFirst pid
    (fun p => { p with placedWorkerThisTurn := some bid, workerInHand := none }) rfl
    (fun x hx => by simp at hx)

theorem markBuildingUsed_nnw (pid : Int) (bid : String) (s : GameState) :
    NNW s (markBuildingUsed pid bid s) := by
  refine nnw_updateFirst pid
    (fun p => if p.buildingsUsedThisTurn.contains bid then p
      else { p with buildingsUsedThisTurn := p.buildingsUsedThisTurn ++ [bid] }) rfl
    (fun x hx => ?_)
  have hx' : (if x.buildingsUsedThisTurn.contains bid then x
      else { x with buildingsUsedThisTurn := x.buildingsUsedThisTurn ++ [bid] }).workerInHand ≠
        none := hx
  split_ifs at hx' with hcon
  · exact hx'
  · exact hx'

theorem executePlaceWorker_nnw (ctx : Catalog) (pid : Int) (bid : String)
    (s : GameState) (g : Nat) :
    NNW s (executePlaceWorker ctx pid bid s g).1 := by
  unfold executePlaceWorker
  split
  · exact nnw_refl s
  next player hp =>
    dsimp only
    split
    · exact placedState_nnw pid bid player s
    next building hb =>
      have h3 : NNW s (executeBuildingEffect building player.workerInHand pid
          (placedState pid bid player s) g).1 :=
        nnw_trans (placedState_nnw pid bid player s)
          (executeBuildingEffect_nnw building player.workerInHand pid _ g)
      split
      next e hbe => exact h3
      next hbe => exact nnw_trans h3 (markBuildingUsed_nnw pid bid _)

theorem executeHireCrew_nnw (pid : Int) (cardId : String) (did : Option String)
    (s : GameState) : NNW s (executeHireCrew pid cardId did s).1 := by
  unfold executeHireCrew
  split
  · exact nnw_refl s
  next player hp =>
    split
    · exact nnw_refl s
    next card hc =>
      have hfind : s.players.find? (fun p => p.playerId == pid) = some player := hp
      obtain ⟨j, hj, hqx, hupd, hoth⟩ :=
        find?_updateFirst_spec (fun p => p.playerId == pid)
          (fun _ => hiredPlayer player card cardId did) s.players player hfind
      intro i p' hp' hne
      replace hp' : (updateFirst (fun p => p.playerId == pid)
          (fun _ => hiredPlayer player card cardId did) s.players).get? i = some p' := hp'
      by_cases hij : i = j
      · subst hij
        rw [hupd] at hp'
        obtain rfl : hiredPlayer player card cardId did = p' := by injection hp'
        exact ⟨player, hj, hne⟩
      · rw [hoth i hij] at hp'
        exact ⟨p', hp', hne⟩

theorem executePlayCardTownHall_nnw (pid : Int) (cardId : String) (s : GameState) :
    NNW s (executePlayCardTownHall pid cardId s).1 := by
  unfold executePlayCardTownHall
  split
  · exact nnw_refl s
  next player hp =>
    split
    next card hc =>
      exact nnw_updateFirst pid
        (fun p => { p with hand := eraseFirstBy (fun c => c.id == cardId) p.hand }) rfl
        (fun x hx => hx)
    next hc =>
      split
      next card hcr =>
        exact nnw_updateFirst pid
          (fun p => { p with crew := eraseFirstBy (fun c => c.id == cardId) p.crew }) rfl
          (fun x hx => hx)
      next hcr => exact nnw_refl s

theorem executeRaid_nnw (ctx : Catalog) (pid : Int) (locId subId : String)
    (crewIds : List String) (s : GameState) (g : Nat) :
    NNW s (executeRaid ctx pid locId subId crewIds s g).1 := by
  unfold executeRaid
  cases hp : s.getPlayer pid with
  | none => exact nnw_refl s
  | some player =>
    cases hr : ctx.getRaid locId with
    | none => exact nnw_refl s
    | some raid =>
      refine nnw_trans
        (nnw_updatePlayer pid
          (fun p => { p with provisions := p.provisions - raid.requirements.provisions,
                             gold := p.gold - raid.requirements.gold }) s
          (fun x hx => hx)) ?_
      exact nnw_updatePlayer pid
        (fun p => { p with vp := p.vp +
          raid.getVpForStrength (raidExecuteCrewStrength player crewIds +
            (rollDice raid.diceAdded g).1) }) _
        (fun x hx => hx)

theorem winnerFold_max (l : List PlayerState) :
    ∀ (m : Int) (w : Option PlayerState),
      ((∀ p ∈ l, p.getFinalVP ≤ m) → l.foldl winnerStep (m, w) = (m, w)) ∧
      ((∃ p ∈ l, m < p.getFinalVP) →
        ∃ i p, l.get? i = some p ∧
          l.foldl winnerStep (m, w) = (p.getFinalVP, some p) ∧
          m < p.getFinalVP ∧ (∀ q ∈ l, q.getFinalVP ≤ p.getFinalVP) ∧
          ∀ k q, k < i → l.get? k = some q → q.getFinalVP < p.getFinalVP) := by
  induction l with
  | nil =>
    intro m w
    refine ⟨fun _ => rfl, ?_⟩
    rintro ⟨p, hp, _⟩
    exact absurd hp (List.not_mem_nil p)
  | cons a as ih =>
    intro m w
    constructor
    · intro hall
      have hstep : winnerStep (m, w) a = (m, w) := by
        unfold winnerStep
        rw [if_neg (not_lt.mpr (hall a (List.mem_cons_self a as)))]
      rw [List.foldl_cons, hstep]
      exact (ih m w).1 (fun p hp => hall p (List.mem_cons_of_mem a hp))
    · rintro ⟨p0, hp0mem, hp0⟩
      by_cases hca : m < a.getFinalVP
      · have hstep : winnerStep (m, w) a = (a.getFinalVP, some a) := by
          unfold winnerStep
          rw [if_pos hca]
        rw [List.foldl_cons, hstep]
        by_cases hex : ∃ q ∈ as, a.getFinalVP < q.getFinalVP
        · obtain ⟨i, p, hi, heq, hlt, hub, hfirst⟩ := (ih a.getFinalVP (some a)).2 hex
          refine ⟨i + 1, p, hi, heq, lt_trans hca hlt, ?_, ?_⟩
          · intro q hq
            rcases List.mem_cons.mp hq with rfl | hq'
            · exact le_of_lt hlt
            · exact hub q hq'
          · intro k q hk hkq
            cases k with
            | zero =>
              obtain rfl : a = q := by injection hkq
              exact hlt
            | succ k' => exact hfirst k' q (by omega) hkq
        · push_neg at hex
          have hfold := (ih a.getFinalVP (some a)).1 hex
          rw [hfold]
          refine ⟨0, a, rfl, rfl, hca, ?_, ?_⟩
          · intro q hq
            rcases List.mem_cons.mp hq with rfl | hq'
            · exact le_refl _
            · exact hex q hq'
          · intro k q hk _
            omega
      · have hstep : winnerStep (m, w) a = (m, w) := by
          unfold winnerStep
          rw [if_neg hca]
        rw [List.foldl_cons, hstep]
        have hex : ∃ q ∈ as, m < q.getFinalVP := by
          rcases List.mem_cons.mp hp0mem with rfl | hmem
          · exact absurd hp0 hca
          · exact ⟨p0, hmem, hp0⟩
        obtain ⟨i, p, hi, heq, hlt, hub, hfirst⟩ := (ih m w).2 hex
        refine ⟨i + 1, p, hi, heq, hlt, ?_, ?_⟩
        · intro q hq
          rcases List.mem_cons.mp hq with rfl | hq'
          · exact le_trans (not_lt.mp hca) (le_of_lt hlt)
          · exact hub q hq'
        · intro k q hk hkq
          cases k with
          | zero =>
            obtain rfl : a = q := by injection hkq
            exact lt_of_le_of_lt (not_lt.mp hca) hlt
          | succ k' => exact hfirst k' q (by omega) hkq

theorem determineWinner_spec (s : GameState) (hne : s.players ≠ [])
    (hvp : ∀ p ∈ s.players, 0 ≤ p.getFinalVP) :
    s.determineWinner.gameEnded = s.gameEnded ∧
    s.determineWinner.players = s.players ∧
    ∃ i p, s.players.get? i = some p ∧
      s.determineWinner.winnerId = some p.playerId ∧
      (∀ q ∈ s.players, q.getFinalVP ≤ p.getFinalVP) ∧
      ∀ k q, k < i → s.players.get? k = some q → q.getFinalVP < p.getFinalVP := by
  have hexvp : ∃ p ∈ s.players, (-1 : Int) < p.getFinalVP := by
    cases hps : s.players with
    | nil => exact absurd hps hne
    | cons p0 rest =>
      have hmem : p0 ∈ s.players := by
        rw [hps]
        exact List.mem_cons_self p0 rest
      have h0 := hvp p0 hmem
      exact ⟨p0, List.mem_cons_self p0 rest, by omega⟩
  obtain ⟨i, p, hi, heq, _, hub, hfirst⟩ := (winnerFold_max s.players (-1) none).2 hexvp
  unfold GameState.determineWinner
  rw [heq]
  exact ⟨rfl, rfl, i, p, hi, rfl, hub, hfirst⟩

theorem fortressSums_eq (ctx : Catalog) (s : GameState)
    (hft : ∀ rs ∈ s.raidStates,
      isFortressLoc rs.locationId = fortressTypeFlag ctx rs.locationId) :
    s.fortressPlunderSum = fortressTypePlunderSum ctx s := by
  unfold GameState.fortressPlunderSum fortressTypePlunderSum
  rw [List.filter_congr hft]

theorem isLegalHireCrew_player (pid : Int) (cardId : String) (did : Option String)
    (s : GameState) (h : isLegalHireCrew pid cardId did s = true) :
    ∃ p, s.getPlayer pid = some p ∧
      ∃ card, p.hand.find? (fun c => c.id == cardId) = some card := by
  unfold isLegalHireCrew at h
  split at h
  · exact absurd h Bool.false_ne_true
  next p hp =>
    split at h
    · exact absurd h Bool.false_ne_true
    next card hc => exact ⟨p, hp, card, hc⟩

/-! ### Claim theorems -/

/-- C1: if an action's legality predicate evaluates to false on the
current state, the engine facade's take-action call fails with the
illegal-action (ValueError) signal and returns the engine completely
unchanged — same game state, same action history, same state history;
validation happens before any mutation. -/
theorem C1_take_action_rejects_illegal (ctx : Catalog) (e : Engine) (a : Action)
    (h : validateAction ctx a e.state = .ok false) :
    takeAction ctx e a = (e, .error .valueError) := by
  unfold takeAction
  rw [h]

/-- Witness for C1 at a concrete input: hiring by a nonexistent player
is illegal, and the engine is returned unchanged with the error. -/
theorem C1_take_action_rejects_illegal_witness :
    validateAction testCatalog (.hireCrew 5 "x" none) e0.state = .ok false ∧
    takeAction testCatalog e0 (.hireCrew 5 "x" none) = (e0, .error .valueError) :=
  ⟨rfl, C1_take_action_rejects_illegal testCatalog e0 (.hireCrew 5 "x" none) rfl⟩

/-- C2: `RaidAction.is_legal` does not evaluate to a boolean on every
state: on a reachable engine state in which every earlier check passes
and the target sublocation exists, it raises `AttributeError`, because
it calls `raid_state.get_plunder_remaining()` and `RaidState`
(state.py lines 124-130) defines no such method. -/
theorem C2_raid_is_legal_raises :
    isLegalRaid testCatalog 0 "raid_008_f1" "s1" [] eAfter3.state = .error .attributeError ∧
    (takeAction testCatalog eAfter3 (.raid 0 "raid_008_f1" "s1" [])).2 =
      .error .attributeError ∧
    (takeAction testCatalog eAfter3 (.raid 0 "raid_008_f1" "s1" [])).1 = eAfter3 := by
  exact ⟨rfl, rfl, rfl⟩

/-- C3: `RaidAction.execute` does not compute crew strength by the
dynamic strength computation: it sums the selected crew's base
strengths only (5 here), while `RulesEngine.calculate_raid_strength` —
which implements the dynamic computation and has no callers — yields 6
on the same input; moreover execute raises `AttributeError` at
`raid_state.plunder_resources` before completing. -/
theorem C3_raid_strength_divergence :
    raidExecuteCrewStrength pC3 ["d1", "p1"] = 5 ∧
    calculateRaidStrength testCatalog pC3 ["d1", "p1"] "raid_008_f1" = 6 ∧
    raidExecuteCrewStrength pC3 ["d1", "p1"] ≠
      calculateRaidStrength testCatalog pC3 ["d1", "p1"] "raid_008_f1" ∧
    (executeRaid testCatalog 0 "raid_008_f1" "s1" ["d1", "p1"] sC3 7).2.2 =
      some .attributeError := by
  refine ⟨rfl, rfl, ?_, rfl⟩
  decide

/-- C4: `PlayCardTownHallAction.execute` removes the card from the hand
and appends it to the discard pile, but does not resolve the card's
town-hall effect: after playing a gain-2-silver card the player's
silver is unchanged (2), although `RulesEngine.resolve_town_hall_effect`
(which has no callers) would raise it to 4. -/
theorem C4_town_hall_effect_not_resolved :
    isLegalPlayCardTownHall 0 "c1" sC4 = true ∧
    ((executePlayCardTownHall 0 "c1" sC4).1.getPlayer 0).map (·.hand) = some [] ∧
    (executePlayCardTownHall 0 "c1" sC4).1.townsfolkDiscard = [cardTH] ∧
    ((executePlayCardTownHall 0 "c1" sC4).1.getPlayer 0).map (·.silver) = some 2 ∧
    ((resolveTownHallEffect sC4 0 (.gainResource "silver" 2) 0).1.getPlayer 0).map
      (·.silver) = some 4 := by
  exact ⟨rfl, rfl, rfl, rfl, rfl⟩

/-- C5 counterexample: with 5 crew and a `discard_crew_id` naming no
owned crew card, `HireCrewAction.is_legal` still returns true (the
claim says it must be false), and execute pushes the crew size to 6. -/
theorem C5_counterexample :
    isLegalHireCrew 0 "h1" (some "zzz") sC5 = true ∧
    (sC5.getPlayer 0).map (·.getCrewCount) = some 5 ∧
    (sC5.getPlayer 0).map (fun p => p.crew.any (fun c => c.id == "zzz")) = some false ∧
    ((executeHireCrew 0 "h1" (some "zzz") sC5).1.getPlayer 0).map (·.getCrewCount) =
      some 6 := by
  exact ⟨rfl, rfl, rfl, rfl⟩

/-- C5 (amended): `HireCrewAction.is_legal` returns true only if the
named card is in the player's hand, the player's silver covers its
cost, the hero restriction holds, and either the crew count is below 5
or a non-empty `discard_crew_id` is supplied — ownership of the
discard target is not checked. -/
theorem C5_amended_hire_legality (pid : Int) (cardId : String) (did : Option String)
    (s : GameState) (h : isLegalHireCrew pid cardId did s = true) :
    ∃ p card, s.getPlayer pid = some p ∧
      p.hand.find? (fun c => c.id == cardId) = some card ∧
      card.cost ≤ p.silver ∧
      (5 ≤ p.getCrewCount → optStrTruthy did = true) ∧
      (card.isHero = true → p.hasHero = false) := by
  unfold isLegalHireCrew at h
  split at h
  · exact absurd h Bool.false_ne_true
  next p hp =>
    split at h
    · exact absurd h Bool.false_ne_true
    next card hc =>
      split_ifs at h with h1 h2 h3
      refine ⟨p, card, hp, hc, le_of_not_lt h1, ?_, ?_⟩
      · intro hcc
        cases hbt : optStrTruthy did with
        | true => rfl
        | false => exact absurd (by simp [hcc, hbt]) h2
      · intro hhero
        cases hh : p.hasHero with
        | false => rfl
        | true => exact absurd (by simp [hhero, hh]) h3

/-- Witness for the amended C5 at a concrete legal input. -/
theorem C5_amended_hire_legality_witness :
    ∃ p card, sC5.getPlayer 0 = some p ∧
      p.hand.find? (fun c => c.id == "h1") = some card ∧
      card.cost ≤ p.silver ∧
      (5 ≤ p.getCrewCount → optStrTruthy (some "zzz") = true) ∧
      (card.isHero = true → p.hasHero = false) :=
  C5_amended_hire_legality 0 "h1" (some "zzz") sC5 rfl

theorem endCheckState_nnw (s1 : GameState) :
    NNW s1 (if s1.gameEnded then s1 else (s1.checkEndConditions).1) := by
  split_ifs with h
  · exact nnw_refl s1
  · exact nnw_of_players_eq (checkEnd_players s1)

theorem takeAction_nnw (ctx : Catalog) (e : Engine) (a : Action)
    (hnp : ∀ q b, a ≠ Action.pickupWorker q b) :
    NNW e.state ((takeAction ctx e a).1).state := by
  unfold takeAction
  cases hv : validateAction ctx a e.state with
  | error err => exact nnw_refl e.state
  | ok b =>
    cases b with
    | false => exact nnw_refl e.state
    | true =>
      have hex : NNW e.state (executeAction ctx a e.state e.rng).1 := by
        cases a with
        | placeWorker pid bid => exact executePlaceWorker_nnw ctx pid bid e.state e.rng
        | pickupWorker pid bid => exact absurd rfl (hnp pid bid)
        | hireCrew pid cid did => exact executeHireCrew_nnw pid cid did e.state
        | playCardTownHall pid cid => exact executePlayCardTownHall_nnw pid cid e.state
        | raid pid locId subId crewIds =>
          exact executeRaid_nnw ctx pid locId subId crewIds e.state e.rng
      dsimp only
      cases he : (executeAction ctx a e.state e.rng).2.2 with
      | some err => exact hex
      | none => exact nnw_trans hex (endCheckState_nnw _)

/-- C7 counterexample: a reachable, non-ended engine state in which the
player whose turn has just begun holds no worker in hand (and has no
placed worker to pick up): player 1 places a worker while it is player
0's turn — every step below passes validation — and after player 0's
turn ends, player 1's turn begins with no worker, so the claim that a
player holds a worker whenever their turn begins is false. -/
theorem C7_counterexample :
    validateAction testCatalog (.placeWorker 1 "b1") e0.state = .ok true ∧
    validateAction testCatalog (.placeWorker 0 "b2")
      (runGame testCatalog ["Alice", "Bob"] 7 [.placeWorker 1 "b1"]).state = .ok true ∧
    validateAction testCatalog (.pickupWorker 0 "b1")
      (runGame testCatalog ["Alice", "Bob"] 7
        [.placeWorker 1 "b1", .placeWorker 0 "b2"]).state = .ok true ∧
    eAfter3.state.gameEnded = false ∧
    eAfter3.state.currentPlayerIdx = 1 ∧
    (eAfter3.state.players.get? 1).map (·.workerInHand) = some none ∧
    (eAfter3.state.players.get? 1).map (·.placedWorkerThisTurn) = some none := by
  exact ⟨rfl, rfl, rfl, rfl, rfl, rfl, rfl⟩

/-- C7 (amended): no worker is drawn at a round or turn start.  A
take-action step whose action is not a PickupWorker never puts a worker
into any player's hand (at every player index, a held worker after the
step implies a held worker before it); a player left without a held
worker begins their next turn with none. -/
theorem C7_amended_only_pickup_grants_worker (ctx : Catalog) (e : Engine) (a : Action)
    (hnp : ∀ q b, a ≠ Action.pickupWorker q b) (i : Nat) (p' : PlayerState)
    (hp' : ((takeAction ctx e a).1).state.players.get? i = some p')
    (hw : p'.workerInHand ≠ none) :
    ∃ p, e.state.players.get? i = some p ∧ p.workerInHand ≠ none :=
  takeAction_nnw ctx e a hnp i p' hp' hw

/-- Witness for the amended C7 at a concrete input: after player 0
places a worker, player 1 (who still holds a worker) held one before
the step as well. -/
theorem C7_amended_only_pickup_grants_worker_witness :
    ∃ p, e0.state.players.get? 1 = some p ∧ p.workerInHand ≠ none :=
  C7_amended_only_pickup_grants_worker testCatalog e0 (.placeWorker 0 "b1")
    (fun _ _ h => Action.noConfusion h) 1 _ rfl (by decide)

/-- C9: two runs that construct the initial state from the same player
names and seed and then apply the same action sequence produce
identical engines — the same shuffles, deals, offering reveals, dice
rolls and therefore bit-identical game states. -/
theorem C9_determinism (ctx : Catalog) (names : List String) (seed : Nat)
    (acts : List Action) (e1 e2 : Engine)
    (h1 : e1 = runGame ctx names seed acts) (h2 : e2 = runGame ctx names seed acts) :
    e1 = e2 ∧ e1.state = e2.state := by
  subst h1
  subst h2
  exact ⟨rfl, rfl⟩

/-- C10: a legal HireCrew execution modifies only the hiring player's
hand, crew and silver plus the shared discard pile: every game-state
field other than players and discard is unchanged, the discard pile is
only appended to, every player other than the (first) player with the
hiring id is untouched, and on that player every field other than
hand, crew and silver — including the has-acted flag — is unchanged;
the current-player index is unchanged, so hiring does not end or
advance the turn. -/
theorem C10_hire_frame (pid : Int) (cardId : String) (did : Option String)
    (s : GameState) (h : isLegalHireCrew pid cardId did s = true) :
    ((executeHireCrew pid cardId did s).1.currentPlayerIdx = s.currentPlayerIdx ∧
     (executeHireCrew pid cardId did s).1.firstPlayerIdx = s.firstPlayerIdx ∧
     (executeHireCrew pid cardId did s).1.phase = s.phase ∧
     (executeHireCrew pid cardId did s).1.roundNumber = s.roundNumber ∧
     (executeHireCrew pid cardId did s).1.townsfolkDeck = s.townsfolkDeck ∧
     (executeHireCrew pid cardId did s).1.offeringStack = s.offeringStack ∧
     (executeHireCrew pid cardId did s).1.visibleOfferings = s.visibleOfferings ∧
     (executeHireCrew pid cardId did s).1.workerPlacements = s.workerPlacements ∧
     (executeHireCrew pid cardId did s).1.raidStates = s.raidStates ∧
     (executeHireCrew pid cardId did s).1.neutralWorkers = s.neutralWorkers ∧
     (executeHireCrew pid cardId did s).1.gameEnded = s.gameEnded ∧
     (executeHireCrew pid cardId did s).1.winnerId = s.winnerId) ∧
    (∃ d, (executeHireCrew pid cardId did s).1.townsfolkDiscard =
      s.townsfolkDiscard ++ d) ∧
    ∃ j p, s.players.get? j = some p ∧ p.playerId = pid ∧
      (∀ k, k ≠ j →
        (executeHireCrew pid cardId did s).1.players.get? k = s.players.get? k) ∧
      ∃ p', (executeHireCrew pid cardId did s).1.players.get? j = some p' ∧
        p'.playerId = p.playerId ∧ p'.name = p.name ∧ p'.gold = p.gold ∧
        p'.provisions = p.provisions ∧ p'.iron = p.iron ∧ p'.livestock = p.livestock ∧
        p'.armour = p.armour ∧ p'.valkyrie = p.valkyrie ∧ p'.vp = p.vp ∧
        p'.offerings = p.offerings ∧ p'.workerInHand = p.workerInHand ∧
        p'.hasActed = p.hasActed ∧ p'.placedWorkerThisTurn = p.placedWorkerThisTurn ∧
        p'.buildingsUsedThisTurn = p.buildingsUsedThisTurn := by
  obtain ⟨p, hp, card, hc⟩ := isLegalHireCrew_player pid cardId did s h
  have hrw : executeHireCrew pid cardId did s =
      ({ (updatePlayer pid (fun _ => hiredPlayer p card cardId did) s) with
         townsfolkDiscard :=
           (updatePlayer pid (fun _ => hiredPlayer p card cardId did) s).townsfolkDiscard
             ++ crewDiscarded p did }, none) := by
    simp only [executeHireCrew, hp, hc]
  rw [hrw]
  have hfind : s.players.find? (fun q => q.playerId == pid) = some p := hp
  obtain ⟨j, hj, hq, hupd, hoth⟩ := find?_updateFirst_spec
    (fun q => q.playerId == pid) (fun _ => hiredPlayer p card cardId did) s.players p hfind
  refine ⟨⟨rfl, rfl, rfl, rfl, rfl, rfl, rfl, rfl, rfl, rfl, rfl, rfl⟩,
    ⟨crewDiscarded p did, rfl⟩, j, p, hj, eq_of_beq hq, ?_, ?_⟩
  · intro k hk
    exact hoth k hk
  · exact ⟨hiredPlayer p card cardId did, hupd,
      rfl, rfl, rfl, rfl, rfl, rfl, rfl, rfl, rfl, rfl, rfl, rfl, rfl, rfl⟩

/-- Witness for C10 at a concrete legal input. -/
theorem C10_hire_frame_witness :
    (executeHireCrew 0 "h1" (some "zzz") sC5).1.currentPlayerIdx =
      sC5.currentPlayerIdx ∧
    (executeHireCrew 0 "h1" (some "zzz") sC5).1.workerPlacements = sC5.workerPlacements :=
  ⟨(C10_hire_frame 0 "h1" (some "zzz") sC5 rfl).1.1,
   (C10_hire_frame 0 "h1" (some "zzz") sC5 rfl).1.2.2.2.2.2.2.2.1⟩

/-- Witness for C9 at a concrete run. -/
theorem C9_determinism_witness :
    runGame testCatalog ["Alice", "Bob"] 7 outOfTurnTrace =
      runGame testCatalog ["Alice", "Bob"] 7 outOfTurnTrace ∧
    (runGame testCatalog ["Alice", "Bob"] 7 outOfTurnTrace).state =
      (runGame testCatalog ["Alice", "Bob"] 7 outOfTurnTrace).state :=
  C9_determinism testCatalog ["Alice", "Bob"] 7 outOfTurnTrace _ _ rfl rfl

/-- C6: check-end-conditions returns true (setting the game-ended flag)
if and only if the total remaining plunder over all fortress-type raid
sublocations is at most 1 or the offering draw stack is empty (the
fortress-type sum is the spec-modelled `fortressTypePlunderSum`,
connected to the code's id-prefix filter by the `hft` hypothesis); when
it returns false the state is untouched; on true the winner is the
first player in player order with the highest final VP. -/
theorem C6_end_conditions (ctx : Catalog) (s : GameState)
    (hft : ∀ rs ∈ s.raidStates,
      isFortressLoc rs.locationId = fortressTypeFlag ctx rs.locationId)
    (hne : s.players ≠ []) (hvp : ∀ p ∈ s.players, 0 ≤ p.getFinalVP) :
    ((s.checkEndConditions).2 = true ↔
      (fortressTypePlunderSum ctx s ≤ 1 ∨ s.offeringStack = [])) ∧
    ((s.checkEndConditions).2 = false → (s.checkEndConditions).1 = s) ∧
    ((s.checkEndConditions).2 = true →
      (s.checkEndConditions).1.gameEnded = true ∧
      ∃ i p, s.players.get? i = some p ∧
        (s.checkEndConditions).1.winnerId = some p.playerId ∧
        (∀ q ∈ s.players, q.getFinalVP ≤ p.getFinalVP) ∧
        ∀ k q, k < i → s.players.get? k = some q → q.getFinalVP < p.getFinalVP) := by
  have hsum := fortressSums_eq ctx s hft
  have hwin := determineWinner_spec { s with gameEnded := true } hne hvp
  unfold GameState.checkEndConditions
  by_cases h1 : s.fortressPlunderSum ≤ 1
  · rw [if_pos h1]
    refine ⟨⟨fun _ => Or.inl (by rw [← hsum]; exact h1), fun _ => rfl⟩,
      fun hfalse => absurd hfalse (by simp), fun _ => ?_⟩
    obtain ⟨hge, _, i, p, hi, hw, hub, hfirst⟩ := hwin
    exact ⟨hge, i, p, hi, hw, hub, hfirst⟩
  · rw [if_neg h1]
    by_cases h2 : s.offeringStack.isEmpty
    · rw [if_pos h2]
      refine ⟨⟨fun _ => Or.inr (List.isEmpty_iff.mp h2), fun _ => rfl⟩,
        fun hfalse => absurd hfalse (by simp), fun _ => ?_⟩
      obtain ⟨hge, _, i, p, hi, hw, hub, hfirst⟩ := hwin
      exact ⟨hge, i, p, hi, hw, hub, hfirst⟩
    · rw [if_neg h2]
      refine ⟨⟨fun htrue => absurd htrue (by simp), fun hor => ?_⟩,
        fun _ => rfl, fun htrue => absurd htrue (by simp)⟩
      rcases hor with hle | hnil
      · rw [← hsum] at hle
        exact absurd hle h1
      · rw [hnil] at h2
        exact absurd rfl h2

/-- Witness for C6 at a concrete input: in the freshly constructed test
game the fortress plunder is 5 and the offering stack is nonempty, so
the end check returns false. -/
theorem C6_end_conditions_witness :
    ((e0.state.checkEndConditions).2 = true ↔
      (fortressTypePlunderSum testCatalog e0.state ≤ 1 ∨ e0.state.offeringStack = [])) ∧
    ((e0.state.checkEndConditions).2 = false → (e0.state.checkEndConditions).1 = e0.state) :=
  ⟨(C6_end_conditions testCatalog e0.state (by decide) (by decide) (by decide)).1,
   (C6_end_conditions testCatalog e0.state (by decide) (by decide) (by decide)).2.1⟩

/-! ### Slot-capacity machinery (C8): worker placements per building -/

theorem updatePlayer_placements (pid : Int) (f : PlayerState → PlayerState) (s : GameState) :
    (updatePlayer pid f s).workerPlacements = s.workerPlacements := rfl

theorem getWorkerAtBuilding_congr {s t : GameState}
    (h : t.workerPlacements = s.workerPlacements) (bid : String) :
    t.getWorkerAtBuilding bid = s.getWorkerAtBuilding bid := by
  unfold GameState.getWorkerAtBuilding
  rw [h]

theorem drawCard_placements (s : GameState) (g : Nat) :
    (s.drawCard g).2.1.workerPlacements = s.workerPlacements := rfl

theorem drawCardsToPlayer_placements :
    ∀ (n : Nat) (pid : Int) (s : GameState) (g : Nat),
      (drawCardsToPlayer n pid s g).1.workerPlacements = s.workerPlacements := by
  intro n
  induction n with
  | zero => intro pid s g; rfl
  | succ n ih =>
    intro pid s g
    have hstep : drawCardsToPlayer (n + 1) pid s g =
        drawCardsToPlayer n pid
          (match (s.drawCard g).1 with
           | some c =>
             updatePlayer pid (fun p => { p with hand := p.hand ++ [c] }) (s.drawCard g).2.1
           | none => (s.drawCard g).2.1)
          (s.drawCard g).2.2 := rfl
    rw [hstep, ih]
    cases hc : (s.drawCard g).1 with
    | none => exact drawCard_placements s g
    | some c => exact drawCard_placements s g

theorem executeBuildingEffect_placements (b : VillageBuilding) (color? : Option WorkerColor)
    (pid : Int) (s : GameState) (g : Nat) :
    (executeBuildingEffect b color? pid s g).1.workerPlacements = s.workerPlacements := by
  unfold executeBuildingEffect
  split
  next amount heq => exact drawCardsToPlayer_placements amount pid s g
  next byColor heq =>
    split
    · rfl
    next color => exact updatePlayer_placements pid _ s
  next ty heq => rfl

theorem placedState_placements (pid : Int) (bid : String) (player : PlayerState)
    (s : GameState) :
    (placedState pid bid player s).workerPlacements = s.workerPlacements ++
      [newPlacement pid bid player] := rfl

theorem markBuildingUsed_placements (pid : Int) (bid : String) (s : GameState) :
    (markBuildingUsed pid bid s).workerPlacements = s.workerPlacements := rfl

theorem executePlaceWorker_placements (ctx : Catalog) (pid : Int) (bid : String)
    (s : GameState) (g : Nat) (player : PlayerState)
    (hp : s.getPlayer pid = some player) :
    (executePlaceWorker ctx pid bid s g).1.workerPlacements = s.workerPlacements ++
      [newPlacement pid bid player] := by
  unfold executePlaceWorker
  rw [hp]
  dsimp only
  split
  · exact placedState_placements pid bid player s
  next building hbg =>
    split
    next e hbe =>
      dsimp only
      rw [executeBuildingEffect_placements, placedState_placements]
    next hbe =>
      dsimp only
      rw [markBuildingUsed_placements, executeBuildingEffect_placements,
        placedState_placements]

theorem startNewRound_placements (s : GameState) :
    (s.startNewRound).workerPlacements = s.workerPlacements := rfl

theorem nextPlayer_placements (s : GameState) :
    (s.nextPlayer).workerPlacements = s.workerPlacements := rfl

theorem resetCurrentTurnTracking_placements (s : GameState) :
    (resetCurrentTurnTracking s).workerPlacements = s.workerPlacements := by
  unfold resetCurrentTurnTracking
  split <;> rfl

theorem enforceHandLimit_placements (pid : Int) (s : GameState) :
    (enforceHandLimit pid s).workerPlacements = s.workerPlacements := by
  unfold enforceHandLimit
  split <;> rfl

theorem endTurnTail_placements (pid : Int) (s : GameState) :
    (endTurnTail pid s).workerPlacements = s.workerPlacements := by
  unfold endTurnTail
  dsimp only
  split
  · rw [startNewRound_placements, resetCurrentTurnTracking_placements,
      nextPlayer_placements, enforceHandLimit_placements, updatePlayer_placements]
  · rw [resetCurrentTurnTracking_placements, nextPlayer_placements,
      enforceHandLimit_placements, updatePlayer_placements]

theorem executePickupWorker_placements_sublist (ctx : Catalog) (pid : Int) (bid : String)
    (s : GameState) (g : Nat) :
    ((executePickupWorker ctx pid bid s g).1.workerPlacements).Sublist s.workerPlacements := by
  have hsb : (eraseFirstBy (fun wp => wp.buildingId == bid) s.workerPlacements).Sublist
      s.workerPlacements := eraseFirstBy_sublist _ s.workerPlacements
  unfold executePickupWorker
  split
  · exact List.Sublist.refl _
  · dsimp only
    split
    · exact hsb
    · split
      · exact hsb
      · split
        · dsimp only
          rw [executeBuildingEffect_placements, updatePlayer_placements]
          exact hsb
        · dsimp only
          rw [endTurnTail_placements, markBuildingUsed_placements,
            executeBuildingEffect_placements, updatePlayer_placements]
          exact hsb

theorem executeHireCrew_placements (pid : Int) (cardId : String) (did : Option String)
    (s : GameState) :
    (executeHireCrew pid cardId did s).1.workerPlacements = s.workerPlacements := by
  unfold executeHireCrew
  split
  · rfl
  · split
    · rfl
    · rfl

theorem executePlayCardTownHall_placements (pid : Int) (cardId : String) (s : GameState) :
    (executePlayCardTownHall pid cardId s).1.workerPlacements = s.workerPlacements := by
  unfold executePlayCardTownHall
  split
  · rfl
  · split
    · rfl
    · split
      · rfl
      · rfl

theorem determineWinner_placements (s : GameState) :
    (s.determineWinner).workerPlacements = s.workerPlacements := by
  unfold GameState.determineWinner
  split <;> rfl

theorem checkEnd_placements (s : GameState) :
    ((s.checkEndConditions).1).workerPlacements = s.workerPlacements := by
  unfold GameState.checkEndConditions
  split_ifs <;> simp [determineWinner_placements]

theorem endCheckState_placements (s1 : GameState) :
    (if s1.gameEnded then s1 else (s1.checkEndConditions).1).workerPlacements =
      s1.workerPlacements := by
  split_ifs with h
  · rfl
  · exact checkEnd_placements s1

theorem getBuildingByName_mem (ctx : Catalog) (nm : String) (b : VillageBuilding)
    (h : ctx.getBuildingByName nm = some b) : b ∈ ctx.buildings ∧ b.name = nm := by
  unfold Catalog.getBuildingByName at h
  have hmem := List.mem_of_find?_eq_some h
  have hpred := List.find?_some h
  have hpred' : (b.name == nm) = true := hpred
  exact ⟨List.mem_reverse.mp hmem, eq_of_beq hpred'⟩

theorem getBuilding_mem (ctx : Catalog) (bid : String) (b : VillageBuilding)
    (h : ctx.getBuilding bid = some b) : b ∈ ctx.buildings ∧ b.id = bid := by
  unfold Catalog.getBuilding at h
  have hmem := List.mem_of_find?_eq_some h
  have hpred := List.find?_some h
  have hpred' : (b.id == bid) = true := hpred
  exact ⟨List.mem_reverse.mp hmem, eq_of_beq hpred'⟩

theorem initialPlacements_ids_nodup (ctx : Catalog)
    (hnodup : (ctx.buildings.map (fun b => b.id)).Nodup) :
    ((initialPlacements ctx).map (fun wp => wp.buildingId)).Nodup := by
  have key : ∀ (n1 n2 : String) (b1 b2 : VillageBuilding),
      ctx.getBuildingByName n1 = some b1 → ctx.getBuildingByName n2 = some b2 →
      n1 ≠ n2 → b1.id ≠ b2.id := by
    intro n1 n2 b1 b2 h1 h2 hne hid
    obtain ⟨hm1, hn1⟩ := getBuildingByName_mem ctx n1 b1 h1
    obtain ⟨hm2, hn2⟩ := getBuildingByName_mem ctx n2 b2 h2
    have hb12 : b1 = b2 := List.inj_on_of_nodup_map hnodup hm1 hm2 hid
    exact hne (by rw [← hn1, ← hn2, hb12])
  unfold initialPlacements neutralPlacementFor
  rcases h1 : ctx.getBuildingByName "Gate House" with _ | b1 <;>
  rcases h2 : ctx.getBuildingByName "Town Hall" with _ | b2 <;>
  rcases h3 : ctx.getBuildingByName "Treasury" with _ | b3 <;>
  dsimp only <;>
  simp only [List.nil_append, List.append_nil, List.cons_append, List.singleton_append,
    List.map_cons, List.map_nil, List.map_append]
  · exact List.nodup_nil
  · simp
  · simp
  · have k := key _ _ _ _ h2 h3 (by decide)
    simp [k]
  · simp
  · have k := key _ _ _ _ h1 h3 (by decide)
    simp [k]
  · have k := key _ _ _ _ h1 h2 (by decide)
    simp [k]
  · have k12 := key _ _ _ _ h1 h2 (by decide)
    have k13 := key _ _ _ _ h1 h3 (by decide)
    have k23 := key _ _ _ _ h2 h3 (by decide)
    simp [k12, k13, k23]

theorem nodupkey_count (key : WorkerPlacement → String) :
    ∀ (l : List WorkerPlacement), (l.map key).Nodup →
      ∀ v, (l.filter (fun x => key x == v)).length ≤ 1 := by
  intro l
  induction l with
  | nil => intro _ v; simp
  | cons a as ih =>
    intro hnd v
    rw [List.map_cons, List.nodup_cons] at hnd
    rw [List.filter_cons]
    by_cases hk : (key a == v) = true
    · rw [if_pos hk]
      have hnil : as.filter (fun x => key x == v) = [] := by
        rw [List.filter_eq_nil_iff]
        intro x hx hxk
        apply hnd.1
        have hx1 : key x = v := eq_of_beq hxk
        have hx2 : key a = v := eq_of_beq hk
        rw [hx2, ← hx1]
        exact List.mem_map_of_mem key hx
      rw [hnil]
      simp
    · rw [if_neg hk]
      exact ih hnd.2 v

theorem count_append (l : List WorkerPlacement) (w : WorkerPlacement) (bid : String) :
    ((l ++ [w]).filter (fun wp => wp.buildingId == bid)).length =
      (l.filter (fun wp => wp.buildingId == bid)).length +
        (if w.buildingId == bid then 1 else 0) := by
  rw [List.filter_append, List.length_append]
  congr 1
  rw [List.filter_cons, List.filter_nil]
  by_cases hw : (w.buildingId == bid) = true
  · rw [if_pos hw, if_pos hw]
    rfl
  · rw [if_neg hw, if_neg hw]
    rfl

theorem isLegalPlaceWorker_elim (ctx : Catalog) (pid : Int) (bid : String) (s : GameState)
    (h : isLegalPlaceWorker ctx pid bid s = true) :
    ∃ player building, s.getPlayer pid = some player ∧ ctx.getBuilding bid = some building ∧
      Int.ofNat (s.getWorkerAtBuilding bid).length < building.workerSlots := by
  unfold isLegalPlaceWorker at h
  split at h
  · exact absurd h Bool.false_ne_true
  next player hp =>
    split at h
    · exact absurd h Bool.false_ne_true
    next color hw =>
      split_ifs at h with h1
      split at h
      · exact absurd h Bool.false_ne_true
      next building hbg =>
        split_ifs at h with h2 h3
        exact ⟨player, building, hp, hbg, not_le.mp h3⟩

theorem isLegalRaid_ne_ok_true (ctx : Catalog) (pid : Int) (locId subId : String)
    (crewIds : List String) (s : GameState) :
    isLegalRaid ctx pid locId subId crewIds s ≠ Except.ok true := by
  unfold isLegalRaid
  split
  · simp
  next player =>
    split
    · simp
    next color =>
      split
      · simp
      · split
        · simp
        next raid =>
          split
          · simp
          · split
            · simp
            · split
              · simp
              · split
                · simp
                · split
                  · simp
                  · split
                    · simp
                    · simp

theorem takeAction_count_le (ctx : Catalog)
    (hnodup : (ctx.buildings.map (fun b => b.id)).Nodup)
    (e : Engine) (a : Action) (b : VillageBuilding) (hb : b ∈ ctx.buildings)
    (hcount : Int.ofNat (e.state.getWorkerAtBuilding b.id).length ≤ b.workerSlots) :
    Int.ofNat ((((takeAction ctx e a).1).state).getWorkerAtBuilding b.id).length ≤
      b.workerSlots := by
  unfold takeAction
  cases hv : validateAction ctx a e.state with
  | error err => exact hcount
  | ok bv =>
    cases bv with
    | false => exact hcount
    | true =>
      have hmain : Int.ofNat
          ((executeAction ctx a e.state e.rng).1.getWorkerAtBuilding b.id).length ≤
            b.workerSlots := by
        cases a with
        | placeWorker pid bid =>
          have hv' : (Except.ok (isLegalPlaceWorker ctx pid bid e.state) :
              Except PyErr Bool) = Except.ok true := hv
          have hleg : isLegalPlaceWorker ctx pid bid e.state = true := by
            injection hv'
          obtain ⟨player, building, hp, hbg, hlt⟩ :=
            isLegalPlaceWorker_elim ctx pid bid e.state hleg
          have hpl := executePlaceWorker_placements ctx pid bid e.state e.rng player hp
          show Int.ofNat
            ((executePlaceWorker ctx pid bid e.state e.rng).1.getWorkerAtBuilding
              b.id).length ≤ b.workerSlots
          have hgw : (executePlaceWorker ctx pid bid e.state e.rng).1.getWorkerAtBuilding
              b.id = (e.state.workerPlacements ++
                [newPlacement pid bid player]).filter (fun wp => wp.buildingId == b.id) := by
            unfold GameState.getWorkerAtBuilding
            rw [hpl]
          rw [hgw, count_append]
          by_cases hbid : bid = b.id
          · have hbb : building = b := by
              obtain ⟨hmemB, hidB⟩ := getBuilding_mem ctx bid building hbg
              refine List.inj_on_of_nodup_map hnodup hmemB hb ?_
              rw [hidB, hbid]
            have hite : ((newPlacement pid bid player).buildingId == b.id) = true := by
              simp [newPlacement, hbid]
            rw [if_pos hite]
            rw [hbid, hbb] at hlt
            unfold GameState.getWorkerAtBuilding at hlt
            simp only [Int.ofNat_eq_natCast] at hlt ⊢
            omega
          · have hite : ¬ (((newPlacement pid bid player).buildingId == b.id) = true) := by
              simp [newPlacement, hbid]
            rw [if_neg hite]
            unfold GameState.getWorkerAtBuilding at hcount
            simp only [Int.ofNat_eq_natCast] at hcount ⊢
            omega
        | pickupWorker pid bid =>
          show Int.ofNat
            ((executePickupWorker ctx pid bid e.state e.rng).1.getWorkerAtBuilding
              b.id).length ≤ b.workerSlots
          have hsub := executePickupWorker_placements_sublist ctx pid bid e.state e.rng
          have hlen : ((executePickupWorker ctx pid bid e.state e.rng).1.getWorkerAtBuilding
              b.id).length ≤ (e.state.getWorkerAtBuilding b.id).length := by
            unfold GameState.getWorkerAtBuilding
            exact List.Sublist.length_le (List.Sublist.filter _ hsub)
          simp only [Int.ofNat_eq_natCast] at hcount ⊢
          omega
        | hireCrew pid cid did =>
          show Int.ofNat
            ((executeHireCrew pid cid did e.state).1.getWorkerAtBuilding b.id).length ≤
              b.workerSlots
          rw [getWorkerAtBuilding_congr (executeHireCrew_placements pid cid did e.state) b.id]
          exact hcount
        | playCardTownHall pid cid =>
          show Int.ofNat
            ((executePlayCardTownHall pid cid e.state).1.getWorkerAtBuilding b.id).length ≤
              b.workerSlots
          rw [getWorkerAtBuilding_congr (executePlayCardTownHall_placements pid cid e.state)
            b.id]
          exact hcount
        | raid pid locId subId crewIds =>
          exact absurd
            (show isLegalRaid ctx pid locId subId crewIds e.state = Except.ok true from hv)
            (isLegalRaid_ne_ok_true ctx pid locId subId crewIds e.state)
      dsimp only
      cases he : (executeAction ctx a e.state e.rng).2.2 with
      | some err => exact hmain
      | none =>
        show Int.ofNat (((if (executeAction ctx a e.state e.rng).1.gameEnded then
            (executeAction ctx a e.state e.rng).1 else
            ((executeAction ctx a e.state e.rng).1.checkEndConditions).1)).getWorkerAtBuilding
              b.id).length ≤ b.workerSlots
        rw [getWorkerAtBuilding_congr (endCheckState_placements _) b.id]
        exact hmain

/-- C8: the slot-capacity invariant.  For a catalog with distinct
building ids and capacities of at least one slot (spec section 3), every
engine state reachable through the facade — the fresh engine with its
three neutral placements, and anything any `take_action` call can leave
behind — has at most `worker_slots` placements at every building:
`PlaceWorker` appends one placement only after its legality check
bounds the occupant count strictly below the capacity, `PickupWorker`
only removes placements, and no other action (hire, town-hall play, or
the always-failing raid) touches the placement list. -/
theorem C8_slot_capacity_invariant (ctx : Catalog)
    (hnodup : (ctx.buildings.map (fun b => b.id)).Nodup)
    (hslots : ∀ b ∈ ctx.buildings, 1 ≤ b.workerSlots)
    {e : Engine} (hr : Reachable ctx e) :
    ∀ b ∈ ctx.buildings,
      Int.ofNat ((e.state.getWorkerAtBuilding b.id)).length ≤ b.workerSlots := by
  induction hr with
  | init names seed =>
    intro b hb
    have hcnt : ((initialPlacements ctx).filter (fun wp => wp.buildingId == b.id)).length ≤
        1 :=
      nodupkey_count (fun wp => wp.buildingId) (initialPlacements ctx)
        (initialPlacements_ids_nodup ctx hnodup) b.id
    have h1 := hslots b hb
    have hgw : (initEngine ctx names seed).state.getWorkerAtBuilding b.id =
        (initialPlacements ctx).filter (fun wp => wp.buildingId == b.id) := rfl
    rw [hgw]
    simp only [Int.ofNat_eq_natCast]
    omega
  | step a hr ih =>
    intro b hb
    exact takeAction_count_le ctx hnodup _ a b hb (ih b hb)

/-- Witness for C8 at the test catalog: the freshly reset engine
satisfies the capacity bound at the two-slot Mill. -/
theorem C8_slot_capacity_invariant_witness :
    Int.ofNat (((initEngine testCatalog ["Alice", "Bob"] 7).state.getWorkerAtBuilding
      "b1")).length ≤ 2 := by
  have h := C8_slot_capacity_invariant testCatalog (by decide) (by decide)
    (Reachable.init ["Alice", "Bob"] 7)
    { id := "b1", name := "Mill", workerSlots := 2,
      effect := .otherEffect "none", workerRequirement := none } (by decide)
  exact h

end Raiders
